import Mathlib

/-!
Verification of the v1.17.1 "play"-phase packet codec and opcode dispatch
layer (`src/protocol/src/version/v1_17_1/game.rs`).

The dispatch layer (`GameServerBoundPacket::decode`, `GameClientBoundPacket::decode`,
`get_type_id`, the packet field lists and the `trait_packet_id!` constants) is
embedded directly from the source file.  The primitive field codecs (fixed-width
integers, booleans, varints, length-prefixed strings, length-prefixed string
sequences, embedded tree blobs) live outside the repository core and are
modelled from the specification's description of them.  Machine integers are
represented as `Nat` bit patterns; floats are represented by their raw
big-endian bit patterns, since every property proved here is about bytes.

A byte source is a `List Nat` of byte values together with the well-formedness
predicate `WfBytes` (every entry `< 256`).  A decoder consumes a byte list and
returns either the decoded value with the remaining bytes, or an error paired
with the reader state at the point of failure (mirroring a `&mut R` reader
that is left wherever the failure occurred).
-/

namespace Proto

/-- Byte sequences are lists of byte values. -/
abbrev Bytes := List Nat

/-- Every entry of the list is an actual byte value. -/
def WfBytes (bs : Bytes) : Prop := ∀ b ∈ bs, b < 256

instance (bs : Bytes) : Decidable (WfBytes bs) :=
  inferInstanceAs (Decidable (∀ b ∈ bs, b < 256))

/-- Modelled from the spec: the decode failure kinds of §7 — an opcode absent
from the registry (carrying the offending opcode), truncated input, a string
exceeding its declared maximum length, a malformed (non-canonical or oversized)
varint, an invalid boolean byte, and a malformed embedded tree. -/
inductive DecodeError where
  | unknownPacketType (typeId : Nat)
  | truncated
  | stringTooLong
  | malformedVarInt
  | invalidBool
  | malformedTree
deriving DecidableEq

/-- Result of running a decoder: the value and the remaining bytes, or an
error together with the reader state at the failure point. -/
abbrev DecRes (α : Type) := Except (DecodeError × Bytes) (α × Bytes)

/-- Sequencing of decode steps; the embedding of Rust's `?` operator:
an error short-circuits unchanged, a success feeds the value and the
advanced reader into the continuation. -/
def andThen (x : DecRes α) (f : α → Bytes → DecRes β) : DecRes β :=
  match x with
  | .error e => .error e
  | .ok (a, bs) => f a bs

@[simp] theorem andThen_ok_eval (a : α) (bs : Bytes) (f : α → Bytes → DecRes β) :
    andThen (.ok (a, bs)) f = f a bs := rfl

@[simp] theorem andThen_error_eval (e : DecodeError × Bytes) (f : α → Bytes → DecRes β) :
    andThen (.error e) f = .error e := rfl

theorem andThen_eq_ok {x : DecRes α} {f : α → Bytes → DecRes β} {v : β} {r : Bytes}
    (h : andThen x f = .ok (v, r)) : ∃ a bs, x = .ok (a, bs) ∧ f a bs = .ok (v, r) := by
  cases x with
  | error e => exact Except.noConfusion ((andThen_error_eval e f) ▸ h)
  | ok p => exact ⟨p.1, p.2, rfl, h⟩

theorem WfBytes.of_append {x y : Bytes} (h : WfBytes (x ++ y)) : WfBytes y :=
  fun b hb => h b (List.mem_append_right _ hb)

theorem WfBytes.of_cons {b : Nat} {r : Bytes} (h : WfBytes (b :: r)) :
    b < 256 ∧ WfBytes r :=
  ⟨h b (List.mem_cons_self _ _), fun c hc => h c (List.mem_cons_of_mem _ hc)⟩

/-- Modelled from the spec: reading a single byte from the source; an empty
source is truncated input. -/
def readByte : Bytes → DecRes Nat
  | [] => .error (.truncated, [])
  | b :: r => .ok (b, r)

theorem readByte_ok {bs : Bytes} {b : Nat} {r : Bytes}
    (h : readByte bs = .ok (b, r)) : bs = b :: r := by
  cases bs with
  | nil => exact Except.noConfusion h
  | cons x t =>
    simp only [readByte, Except.ok.injEq, Prod.mk.injEq] at h
    rw [h.1, h.2]

/-- Modelled from the spec: big-endian fixed-width unsigned read of `w` bytes;
the value is the `Nat` bit pattern (signed integers and IEEE floats are
carried as their raw bit patterns). -/
def readUIntBE : Nat → Bytes → DecRes Nat
  | 0, bs => .ok (0, bs)
  | w + 1, bs =>
    andThen (readByte bs) fun b bs₁ =>
    andThen (readUIntBE w bs₁) fun v bs₂ =>
    .ok (b * 256 ^ w + v, bs₂)

/-- Modelled from the spec: big-endian fixed-width encode of the low `w` bytes
of the value. -/
def encUIntBE : Nat → Nat → Bytes
  | 0, _ => []
  | w + 1, v => (v / 256 ^ w) % 256 :: encUIntBE w v

theorem encUIntBE_shift (w a v : Nat) :
    encUIntBE w (a * 256 ^ w + v) = encUIntBE w v := by
  induction w generalizing a with
  | zero => rfl
  | succ w ih =>
    have hpow : a * 256 ^ (w + 1) + v = (a * 256) * 256 ^ w + v := by ring
    rw [hpow]
    simp only [encUIntBE]
    congr 1
    · have h1 : ((a * 256) * 256 ^ w + v) / 256 ^ w = a * 256 + v / 256 ^ w := by
        rw [Nat.mul_comm (a * 256) (256 ^ w), Nat.mul_add_div (by positivity)]
      rw [h1]
      generalize v / 256 ^ w = c
      omega
    · exact ih (a * 256)

theorem readUIntBE_ok {w : Nat} {bs : Bytes} {v : Nat} {r : Bytes}
    (hwf : WfBytes bs) (h : readUIntBE w bs = .ok (v, r)) :
    encUIntBE w v ++ r = bs ∧ v < 256 ^ w := by
  induction w generalizing bs v r with
  | zero =>
    simp only [readUIntBE, Except.ok.injEq, Prod.mk.injEq] at h
    obtain ⟨h1, h2⟩ := h
    subst h2
    subst h1
    exact ⟨by simp [encUIntBE], by norm_num⟩
  | succ w ih =>
    simp only [readUIntBE] at h
    obtain ⟨b, bs₁, hb, h1⟩ := andThen_eq_ok h
    clear h
    obtain ⟨v', bs₂, hv, h2⟩ := andThen_eq_ok h1
    clear h1
    have hbs := readByte_ok hb
    subst hbs
    obtain ⟨hblt, hwf₁⟩ := hwf.of_cons
    obtain ⟨henc, hlt⟩ := ih hwf₁ hv
    simp only [Except.ok.injEq, Prod.mk.injEq] at h2
    obtain ⟨hv1, hr⟩ := h2
    subst hv1; subst hr
    constructor
    · simp only [encUIntBE]
      have hdiv : (b * 256 ^ w + v') / 256 ^ w = b := by
        rw [Nat.mul_comm b (256 ^ w), Nat.mul_add_div (by positivity),
          Nat.div_eq_of_lt hlt, Nat.add_zero]
      rw [hdiv, Nat.mod_eq_of_lt hblt, encUIntBE_shift, List.cons_append, henc]
    · calc b * 256 ^ w + v' < b * 256 ^ w + 256 ^ w := by omega
        _ = (b + 1) * 256 ^ w := by ring
        _ ≤ 256 * 256 ^ w := Nat.mul_le_mul_right _ hblt
        _ = 256 ^ (w + 1) := by ring

/-- Decoding a fixed-width big-endian encode recovers the value (values below
`256 ^ w` only). -/
theorem readUIntBE_enc (w v : Nat) (r : Bytes) (hv : v < 256 ^ w) :
    readUIntBE w (encUIntBE w v ++ r) = .ok (v, r) := by
  induction w generalizing v with
  | zero =>
    have h1 : v = 0 := by simpa using hv
    subst h1
    simp [encUIntBE, readUIntBE]
  | succ w ih =>
    have h256 : 0 < 256 ^ w := by positivity
    have h0 : v / 256 ^ w * 256 ^ w + v % 256 ^ w = v := by
      rw [Nat.mul_comm]
      exact Nat.div_add_mod v (256 ^ w)
    have hsplit : encUIntBE w v = encUIntBE w (v % 256 ^ w) := by
      conv_lhs => rw [← h0]
      exact encUIntBE_shift w _ _
    simp only [encUIntBE, readUIntBE, List.cons_append, readByte, andThen_ok_eval]
    rw [hsplit, ih (v % 256 ^ w) (Nat.mod_lt _ h256)]
    simp only [andThen_ok_eval, Except.ok.injEq, Prod.mk.injEq, and_true]
    have hdivlt : v / 256 ^ w < 256 := by
      rw [Nat.div_lt_iff_lt_mul h256]
      calc v < 256 ^ (w + 1) := hv
        _ = 256 * 256 ^ w := by ring
    rw [Nat.mod_eq_of_lt hdivlt, h0]

/-- Modelled from the spec: strict boolean decode — the byte 0 is `false`,
1 is `true`, anything else is a decode failure. -/
def readBool (bs : Bytes) : DecRes Bool :=
  andThen (readByte bs) fun b bs₁ =>
    if b = 0 then .ok (false, bs₁)
    else if b = 1 then .ok (true, bs₁)
    else .error (.invalidBool, bs₁)

/-- Modelled from the spec: boolean encode, one byte 0 or 1. -/
def encBool : Bool → Bytes
  | false => [0]
  | true => [1]

theorem readBool_ok {bs : Bytes} {v : Bool} {r : Bytes}
    (h : readBool bs = .ok (v, r)) : encBool v ++ r = bs := by
  cases bs with
  | nil => exact Except.noConfusion h
  | cons b t =>
    simp only [readBool, readByte, andThen_ok_eval] at h
    split at h
    next hb =>
      simp only [Except.ok.injEq, Prod.mk.injEq] at h
      obtain ⟨h1, h2⟩ := h
      subst h2; subst h1; subst hb
      simp [encBool]
    next hb =>
      split at h
      next hb1 =>
        simp only [Except.ok.injEq, Prod.mk.injEq] at h
        obtain ⟨h1, h2⟩ := h
        subst h2; subst h1; subst hb1
        simp [encBool]
      next => exact Except.noConfusion h

theorem readBool_enc (v : Bool) (r : Bytes) :
    readBool (encBool v ++ r) = .ok (v, r) := by
  cases v <;> simp [encBool, readBool, readByte]

/-- Modelled from the spec: the canonical variable-length integer encoding
(LEB128 groups of 7 bits, least-significant group first, continuation bit
0x80); each value has exactly one canonical byte sequence. -/
def var_int_encode (v : Nat) : Bytes :=
  if h : v < 128 then [v] else (v % 128 + 128) :: var_int_encode (v / 128)
termination_by v
decreasing_by exact Nat.div_lt_self (by omega) (by omega)

/-- Modelled from the spec: varint group reader; rejects encodings that use
more bytes than the canonical minimum (a continuation whose remaining value
is zero could have been dropped). -/
def varIntDecodeCore : Bytes → DecRes Nat
  | [] => .error (.truncated, [])
  | b :: r =>
    if b < 128 then .ok (b, r)
    else
      andThen (varIntDecodeCore r) fun v r₁ =>
        if v = 0 then .error (.malformedVarInt, r₁) else .ok ((b - 128) + 128 * v, r₁)

/-- Modelled from the spec: a varint field is a 32-bit value; canonical
encodings of larger values are rejected as malformed. -/
def var_int_decode (bs : Bytes) : DecRes Nat :=
  andThen (varIntDecodeCore bs) fun v r =>
    if v < 4294967296 then .ok (v, r) else .error (.malformedVarInt, r)

theorem varIntDecodeCore_ok {bs : Bytes} {v : Nat} {r : Bytes}
    (hwf : WfBytes bs) (h : varIntDecodeCore bs = .ok (v, r)) :
    var_int_encode v ++ r = bs := by
  induction bs generalizing v r with
  | nil => exact Except.noConfusion h
  | cons b t ih =>
    obtain ⟨hblt, hwft⟩ := hwf.of_cons
    simp only [varIntDecodeCore] at h
    split at h
    next hb =>
      simp only [Except.ok.injEq, Prod.mk.injEq] at h
      obtain ⟨h1, h2⟩ := h
      subst h1; subst h2
      rw [var_int_encode, dif_pos hb]
      rfl
    next hb =>
      obtain ⟨v', r₁, hv, h2⟩ := andThen_eq_ok h
      clear h
      split at h2
      next => exact Except.noConfusion h2
      next hvz =>
        simp only [Except.ok.injEq, Prod.mk.injEq] at h2
        obtain ⟨h1, hr⟩ := h2
        subst h1; subst hr
        have hrec := ih hwft hv
        have hge : ¬ ((b - 128) + 128 * v' < 128) := by omega
        rw [var_int_encode, dif_neg hge]
        have hmod : ((b - 128) + 128 * v') % 128 = b - 128 := by omega
        have hdiv : ((b - 128) + 128 * v') / 128 = v' := by omega
        rw [hmod, hdiv]
        have hhead : b - 128 + 128 = b := by omega
        rw [hhead, List.cons_append, hrec]

theorem varIntDecodeCore_enc (n : Nat) (r : Bytes) :
    varIntDecodeCore (var_int_encode n ++ r) = .ok (n, r) := by
  induction n using Nat.strong_induction_on generalizing r with
  | _ n ih =>
    by_cases hn : n < 128
    · rw [var_int_encode, dif_pos hn]
      simp [varIntDecodeCore, hn]
    · rw [var_int_encode, dif_neg hn]
      have hb : ¬ (n % 128 + 128 < 128) := by omega
      simp only [List.cons_append, varIntDecodeCore, if_neg hb, List.append_eq]
      rw [ih (n / 128) (Nat.div_lt_self (by omega) (by omega)) r]
      have hnz : ¬ (n / 128 = 0) := by omega
      simp only [andThen_ok_eval, if_neg hnz, Except.ok.injEq, Prod.mk.injEq, and_true]
      omega

theorem var_int_decode_ok {bs : Bytes} {v : Nat} {r : Bytes}
    (hwf : WfBytes bs) (h : var_int_decode bs = .ok (v, r)) :
    var_int_encode v ++ r = bs ∧ v < 4294967296 := by
  unfold var_int_decode at h
  obtain ⟨v', r₁, hv, h2⟩ := andThen_eq_ok h
  clear h
  split at h2
  next hlt =>
    simp only [Except.ok.injEq, Prod.mk.injEq] at h2
    obtain ⟨h1, hr⟩ := h2
    subst h1; subst hr
    exact ⟨varIntDecodeCore_ok hwf hv, hlt⟩
  next => exact Except.noConfusion h2

theorem var_int_decode_enc (n : Nat) (r : Bytes) (hn : n < 4294967296) :
    var_int_decode (var_int_encode n ++ r) = .ok (n, r) := by
  unfold var_int_decode
  rw [varIntDecodeCore_enc]
  simp [hn]

/-- Modelled from the spec: reading exactly `n` payload bytes; fewer available
is truncated input. -/
def takeN : Nat → Bytes → DecRes Bytes
  | 0, bs => .ok ([], bs)
  | _ + 1, [] => .error (.truncated, [])
  | n + 1, b :: r =>
    andThen (takeN n r) fun s r₁ => .ok (b :: s, r₁)

theorem takeN_ok {n : Nat} {bs : Bytes} {s : Bytes} {r : Bytes}
    (h : takeN n bs = .ok (s, r)) : s ++ r = bs ∧ s.length = n := by
  induction n generalizing bs s r with
  | zero =>
    simp only [takeN, Except.ok.injEq, Prod.mk.injEq] at h
    obtain ⟨h1, h2⟩ := h
    subst h1; subst h2
    exact ⟨rfl, rfl⟩
  | succ n ih =>
    cases bs with
    | nil => exact Except.noConfusion h
    | cons b t =>
      simp only [takeN] at h
      obtain ⟨s', r₁, hs, h2⟩ := andThen_eq_ok h
      clear h
      simp only [Except.ok.injEq, Prod.mk.injEq] at h2
      obtain ⟨h1, hr⟩ := h2
      subst h1; subst hr
      obtain ⟨happ, hlen⟩ := ih hs
      subst happ
      exact ⟨rfl, by simp [hlen]⟩

theorem takeN_all {n : Nat} {bs : Bytes} (h : n ≤ bs.length) :
    takeN n bs = .ok (bs.take n, bs.drop n) := by
  induction n generalizing bs with
  | zero => simp [takeN]
  | succ n ih =>
    cases bs with
    | nil => simp at h
    | cons b t =>
      simp only [List.length_cons, Nat.succ_le_succ_iff] at h
      simp [takeN, ih h]

theorem takeN_exact (s : Bytes) (r : Bytes) :
    takeN s.length (s ++ r) = .ok (s, r) := by
  have hle : s.length ≤ (s ++ r).length := by simp
  rw [takeN_all hle]
  simp

/-- Modelled from the spec: length-prefixed string decode with a declared
maximum — a varint byte length, rejected when it exceeds the maximum, then
exactly that many bytes of UTF-8 content (content bytes are left abstract). -/
def string_decode (maxLen : Nat) (bs : Bytes) : DecRes Bytes :=
  andThen (var_int_decode bs) fun n r =>
    if maxLen < n then .error (.stringTooLong, r) else takeN n r

/-- Modelled from the spec: length-prefixed string decode with no declared
maximum (used for fields whose schema declares no bound). -/
def string_decode_any (bs : Bytes) : DecRes Bytes :=
  andThen (var_int_decode bs) fun n r => takeN n r

/-- Modelled from the spec: string encode, a varint byte length then the
content bytes. -/
def string_encode (s : Bytes) : Bytes := var_int_encode s.length ++ s

theorem string_decode_ok {maxLen : Nat} {bs : Bytes} {s : Bytes} {r : Bytes}
    (hwf : WfBytes bs) (h : string_decode maxLen bs = .ok (s, r)) :
    string_encode s ++ r = bs ∧ s.length ≤ maxLen := by
  unfold string_decode at h
  obtain ⟨n, r₁, hn, h2⟩ := andThen_eq_ok h
  clear h
  split at h2
  next => exact Except.noConfusion h2
  next hle =>
    obtain ⟨happ, hlen⟩ := takeN_ok h2
    obtain ⟨henc, _⟩ := var_int_decode_ok hwf hn
    subst hlen
    constructor
    · rw [string_encode, List.append_assoc, happ, henc]
    · omega

theorem string_decode_any_ok {bs : Bytes} {s : Bytes} {r : Bytes}
    (hwf : WfBytes bs) (h : string_decode_any bs = .ok (s, r)) :
    string_encode s ++ r = bs := by
  unfold string_decode_any at h
  obtain ⟨n, r₁, hn, h2⟩ := andThen_eq_ok h
  clear h
  obtain ⟨happ, hlen⟩ := takeN_ok h2
  obtain ⟨henc, _⟩ := var_int_decode_ok hwf hn
  subst hlen
  rw [string_encode, List.append_assoc, happ, henc]

theorem string_decode_enc {maxLen : Nat} (s : Bytes) (r : Bytes)
    (hmax : s.length ≤ maxLen) (hsz : s.length < 4294967296) :
    string_decode maxLen (string_encode s ++ r) = .ok (s, r) := by
  unfold string_decode string_encode
  rw [List.append_assoc, var_int_decode_enc _ _ hsz]
  have : ¬ (maxLen < s.length) := by omega
  simp only [andThen_ok_eval, if_neg this]
  exact takeN_exact s r

theorem string_decode_any_enc (s : Bytes) (r : Bytes) (hsz : s.length < 4294967296) :
    string_decode_any (string_encode s ++ r) = .ok (s, r) := by
  unfold string_decode_any string_encode
  rw [List.append_assoc, var_int_decode_enc _ _ hsz]
  simp only [andThen_ok_eval]
  exact takeN_exact s r

/-- Modelled from the spec: decode of `n` consecutive length-prefixed strings
(the elements of a string sequence; the `world_names` elements carry no
enforced bound in the source — its 32767 limit is only a `TODO` comment). -/
def stringListAux : Nat → Bytes → DecRes (List Bytes)
  | 0, bs => .ok ([], bs)
  | n + 1, bs =>
    andThen (string_decode_any bs) fun s r =>
    andThen (stringListAux n r) fun l r₁ =>
    .ok (s :: l, r₁)

/-- Modelled from the spec: an ordered string sequence is a varint element
count followed by that many length-prefixed strings. -/
def string_list_decode (bs : Bytes) : DecRes (List Bytes) :=
  andThen (var_int_decode bs) fun n r => stringListAux n r

/-- Modelled from the spec: encode of the string elements, in order. -/
def stringsEncode : List Bytes → Bytes
  | [] => []
  | s :: t => string_encode s ++ stringsEncode t

/-- Modelled from the spec: string sequence encode, a varint count then the
encoded elements. -/
def string_list_encode (l : List Bytes) : Bytes :=
  var_int_encode l.length ++ stringsEncode l

theorem stringListAux_ok {n : Nat} {bs : Bytes} {l : List Bytes} {r : Bytes}
    (hwf : WfBytes bs) (h : stringListAux n bs = .ok (l, r)) :
    stringsEncode l ++ r = bs ∧ l.length = n := by
  induction n generalizing bs l r with
  | zero =>
    simp only [stringListAux, Except.ok.injEq, Prod.mk.injEq] at h
    obtain ⟨h1, h2⟩ := h
    subst h1; subst h2
    exact ⟨rfl, rfl⟩
  | succ n ih =>
    simp only [stringListAux] at h
    obtain ⟨s, r₁, hs, h2⟩ := andThen_eq_ok h
    clear h
    obtain ⟨l', r₂, hl, h3⟩ := andThen_eq_ok h2
    clear h2
    simp only [Except.ok.injEq, Prod.mk.injEq] at h3
    obtain ⟨h1, hr⟩ := h3
    subst h1; subst hr
    have henc := string_decode_any_ok hwf hs
    have hwf₁ : WfBytes r₁ := by
      rw [← henc] at hwf
      exact hwf.of_append
    obtain ⟨henc', hlen⟩ := ih hwf₁ hl
    constructor
    · rw [stringsEncode, List.append_assoc, henc', henc]
    · simp [hlen]

theorem string_list_decode_ok {bs : Bytes} {l : List Bytes} {r : Bytes}
    (hwf : WfBytes bs) (h : string_list_decode bs = .ok (l, r)) :
    string_list_encode l ++ r = bs := by
  unfold string_list_decode at h
  obtain ⟨n, r₁, hn, h2⟩ := andThen_eq_ok h
  clear h
  obtain ⟨henc, hcnt⟩ := var_int_decode_ok hwf hn
  obtain ⟨happ, hlen⟩ := stringListAux_ok (by rw [← henc] at hwf; exact hwf.of_append) h2
  rw [string_list_encode, hlen, List.append_assoc, happ, henc]

theorem stringListAux_enc (l : List Bytes) (r : Bytes)
    (hall : ∀ s ∈ l, s.length < 4294967296) :
    stringListAux l.length (stringsEncode l ++ r) = .ok (l, r) := by
  induction l with
  | nil => simp [stringListAux, stringsEncode]
  | cons s t ih =>
    simp only [List.length_cons, stringsEncode, stringListAux, List.append_assoc]
    rw [string_decode_any_enc s _ (hall s (List.mem_cons_self _ _))]
    simp only [andThen_ok_eval]
    rw [ih (fun x hx => hall x (List.mem_cons_of_mem _ hx))]
    rfl

theorem string_list_decode_enc (l : List Bytes) (r : Bytes)
    (hcnt : l.length < 4294967296) (hall : ∀ s ∈ l, s.length < 4294967296) :
    string_list_decode (string_list_encode l ++ r) = .ok (l, r) := by
  unfold string_list_decode string_list_encode
  rw [List.append_assoc, var_int_decode_enc _ _ hcnt]
  simp only [andThen_ok_eval]
  exact stringListAux_enc l r hall

/-- Modelled from the spec: an embedded tree-structured binary blob (the
`CompoundTag` field type) — a self-delimiting, recursively structured
key/value tree.  A tag is either a scalar leaf byte or a node holding an
ordered list of key/subtree entries. -/
inductive CompoundTag where
  | leaf (value : Nat)
  | node (entries : List (Nat × CompoundTag))

mutual

/-- Modelled from the spec: tree blob encode — a leaf is tag byte 1 and the
scalar byte; a node is tag byte 2, a varint entry count, then the encoded
entries in order. -/
def CompoundTag.encode : CompoundTag → Bytes
  | .leaf v => [1, v % 256]
  | .node es => 2 :: (var_int_encode es.length ++ CompoundTag.encodeEntries es)

/-- Modelled from the spec: entry list encode — each entry is a key byte then
the encoded subtree. -/
def CompoundTag.encodeEntries : List (Nat × CompoundTag) → Bytes
  | [] => []
  | (k, t) :: rest => k % 256 :: (CompoundTag.encode t ++ CompoundTag.encodeEntries rest)

end

mutual

/-- Modelled from the spec: fuel-indexed tree blob decode (the recursion is
bounded by the fuel, which the top-level entry point sets above the input
length); an unrecognized tag byte is a malformed tree. -/
def tagDecodeAux : Nat → Bytes → DecRes CompoundTag
  | 0, bs => .error (.malformedTree, bs)
  | fuel + 1, bs =>
    andThen (readByte bs) fun tagId r =>
      if tagId = 1 then
        andThen (readByte r) fun v r₁ => .ok (.leaf v, r₁)
      else if tagId = 2 then
        andThen (var_int_decode r) fun n r₁ =>
        andThen (tagEntriesAux fuel n r₁) fun es r₂ =>
        .ok (.node es, r₂)
      else .error (.malformedTree, r)

/-- Modelled from the spec: fuel-indexed decode of `n` key/subtree entries. -/
def tagEntriesAux : Nat → Nat → Bytes → DecRes (List (Nat × CompoundTag))
  | _, 0, bs => .ok ([], bs)
  | 0, _ + 1, bs => .error (.malformedTree, bs)
  | fuel + 1, n + 1, bs =>
    andThen (readByte bs) fun k r =>
    andThen (tagDecodeAux fuel r) fun t r₁ =>
    andThen (tagEntriesAux fuel n r₁) fun es r₂ =>
    .ok ((k, t) :: es, r₂)

end

/-- Modelled from the spec: tree blob decode entry point; the fuel exceeds the
input length, so it never runs out on any input the format can describe. -/
def CompoundTag.decode (bs : Bytes) : DecRes CompoundTag :=
  tagDecodeAux (bs.length + 1) bs

theorem tag_rt (fuel : Nat) :
    (∀ bs t r, WfBytes bs → tagDecodeAux fuel bs = .ok (t, r) →
      CompoundTag.encode t ++ r = bs) ∧
    (∀ n bs es r, WfBytes bs → tagEntriesAux fuel n bs = .ok (es, r) →
      CompoundTag.encodeEntries es ++ r = bs ∧ es.length = n) := by
  induction fuel with
  | zero =>
    constructor
    · intro bs t r _ h
      exact Except.noConfusion h
    · intro n bs es r _ h
      cases n with
      | zero =>
        simp only [tagEntriesAux, Except.ok.injEq, Prod.mk.injEq] at h
        obtain ⟨h1, h2⟩ := h
        subst h1; subst h2
        exact ⟨rfl, rfl⟩
      | succ n => exact Except.noConfusion h
  | succ fuel ih =>
    obtain ⟨ihTag, ihEntries⟩ := ih
    constructor
    · intro bs t r hwf h
      simp only [tagDecodeAux] at h
      obtain ⟨tagId, r0, hid, h2⟩ := andThen_eq_ok h
      clear h
      have hbs := readByte_ok hid
      subst hbs
      obtain ⟨hidlt, hwf0⟩ := hwf.of_cons
      split at h2
      next h1 =>
        subst h1
        obtain ⟨v, r₁, hv, h3⟩ := andThen_eq_ok h2
        clear h2
        have hbs1 := readByte_ok hv
        subst hbs1
        obtain ⟨hvlt, _⟩ := hwf0.of_cons
        simp only [Except.ok.injEq, Prod.mk.injEq] at h3
        obtain ⟨h4, h5⟩ := h3
        subst h4; subst h5
        show CompoundTag.encode (.leaf v) ++ r₁ = 1 :: v :: r₁
        rw [CompoundTag.encode, Nat.mod_eq_of_lt hvlt]
        rfl
      next h1 =>
        split at h2
        next hc =>
          subst hc
          obtain ⟨n, r₁, hn, h3⟩ := andThen_eq_ok h2
          clear h2
          obtain ⟨es, r₂, hes, h4⟩ := andThen_eq_ok h3
          clear h3
          simp only [Except.ok.injEq, Prod.mk.injEq] at h4
          obtain ⟨h5, h6⟩ := h4
          subst h5; subst h6
          obtain ⟨henc, _⟩ := var_int_decode_ok hwf0 hn
          have hwf1 : WfBytes r₁ := by
            rw [← henc] at hwf0
            exact hwf0.of_append
          obtain ⟨happ, hlen⟩ := ihEntries n r₁ es r₂ hwf1 hes
          show CompoundTag.encode (.node es) ++ r₂ = 2 :: r0
          rw [CompoundTag.encode, hlen]
          simp only [List.cons_append, List.append_assoc, happ, henc]
        next => exact Except.noConfusion h2
    · intro n bs es r hwf h
      cases n with
      | zero =>
        simp only [tagEntriesAux, Except.ok.injEq, Prod.mk.injEq] at h
        obtain ⟨h1, h2⟩ := h
        subst h1; subst h2
        exact ⟨rfl, rfl⟩
      | succ n =>
        simp only [tagEntriesAux] at h
        obtain ⟨k, r0, hk, h2⟩ := andThen_eq_ok h
        clear h
        have hbs := readByte_ok hk
        subst hbs
        obtain ⟨hklt, hwf0⟩ := hwf.of_cons
        obtain ⟨t, r₁, ht, h3⟩ := andThen_eq_ok h2
        clear h2
        obtain ⟨es', r₂, hes, h4⟩ := andThen_eq_ok h3
        clear h3
        simp only [Except.ok.injEq, Prod.mk.injEq] at h4
        obtain ⟨h5, h6⟩ := h4
        subst h5; subst h6
        have htenc := ihTag r0 t r₁ hwf0 ht
        have hwf1 : WfBytes r₁ := by
          rw [← htenc] at hwf0
          exact hwf0.of_append
        obtain ⟨happ, hlen⟩ := ihEntries n r₁ es' r₂ hwf1 hes
        constructor
        · show CompoundTag.encodeEntries ((k, t) :: es') ++ r₂ = k :: r0
          rw [CompoundTag.encodeEntries, Nat.mod_eq_of_lt hklt]
          simp only [List.cons_append, List.append_assoc, happ, htenc]
        · simp [hlen]

theorem CompoundTag.decode_ok {bs : Bytes} {t : CompoundTag} {r : Bytes}
    (hwf : WfBytes bs) (h : CompoundTag.decode bs = .ok (t, r)) :
    CompoundTag.encode t ++ r = bs :=
  (tag_rt (bs.length + 1)).1 bs t r hwf h

theorem CompoundTag.decode_leaf (v : Nat) (rest : Bytes) :
    CompoundTag.decode (1 :: v :: rest) = .ok (.leaf v, rest) := by
  show tagDecodeAux (rest.length + 2 + 1) (1 :: v :: rest) = .ok (.leaf v, rest)
  simp [tagDecodeAux, readByte]

/-- Modelled from the spec: rich-text chat formatting is out of scope (§1);
a chat `Message` field is carried on the wire as a length-prefixed string. -/
abbrev Message := Bytes

/-- Modelled from the spec: a raw byte blob field (`Vec<u8>`) takes all bytes
remaining in the packet's byte source. -/
def readToEnd (bs : Bytes) : DecRes Bytes := .ok (bs, [])

/-! ## Packet schemas defined in `v1_17_1/game.rs`
Field order, kinds and declared maxima follow the source struct declarations;
the per-field wire codecs are the spec-modelled primitives above. -/

/-- `ServerBoundPluginMessage`: channel string (max 32767), then raw data. -/
structure ServerBoundPluginMessage where
  channel : Bytes
  data : Bytes

def ServerBoundPluginMessage.decode (bs : Bytes) : DecRes ServerBoundPluginMessage :=
  andThen (string_decode 32767 bs) fun channel r =>
  andThen (readToEnd r) fun data r₁ =>
  .ok ({ channel := channel, data := data }, r₁)

def ServerBoundPluginMessage.encode (p : ServerBoundPluginMessage) : Bytes :=
  string_encode p.channel ++ p.data

/-- `ClientBoundPluginMessage`: channel string (max 32767), then raw data. -/
structure ClientBoundPluginMessage where
  channel : Bytes
  data : Bytes

def ClientBoundPluginMessage.decode (bs : Bytes) : DecRes ClientBoundPluginMessage :=
  andThen (string_decode 32767 bs) fun channel r =>
  andThen (readToEnd r) fun data r₁ =>
  .ok ({ channel := channel, data := data }, r₁)

def ClientBoundPluginMessage.encode (p : ClientBoundPluginMessage) : Bytes :=
  string_encode p.channel ++ p.data

/-- `NamedSoundEffect`: name string (max 32767), varint category, three int32
positions, float32 volume and pitch (floats as raw bit patterns). -/
structure NamedSoundEffect where
  sound_name : Bytes
  sound_category : Nat
  effect_pos_x : Nat
  effect_pos_y : Nat
  effect_pos_z : Nat
  volume : Nat
  pitch : Nat

def NamedSoundEffect.decode (bs : Bytes) : DecRes NamedSoundEffect :=
  andThen (string_decode 32767 bs) fun sound_name r₁ =>
  andThen (var_int_decode r₁) fun sound_category r₂ =>
  andThen (readUIntBE 4 r₂) fun effect_pos_x r₃ =>
  andThen (readUIntBE 4 r₃) fun effect_pos_y r₄ =>
  andThen (readUIntBE 4 r₄) fun effect_pos_z r₅ =>
  andThen (readUIntBE 4 r₅) fun volume r₆ =>
  andThen (readUIntBE 4 r₆) fun pitch r₇ =>
  .ok ({ sound_name, sound_category, effect_pos_x, effect_pos_y, effect_pos_z,
         volume, pitch }, r₇)

def NamedSoundEffect.encode (p : NamedSoundEffect) : Bytes :=
  string_encode p.sound_name ++ var_int_encode p.sound_category ++
  encUIntBE 4 p.effect_pos_x ++ encUIntBE 4 p.effect_pos_y ++
  encUIntBE 4 p.effect_pos_z ++ encUIntBE 4 p.volume ++ encUIntBE 4 p.pitch

/-- `JoinGame`: the fifteen fields in source order.  `world_names` elements
carry no enforced maximum (the 32767 limit is only a `TODO` comment in the
source); `world_name` is bounded by 32767. -/
structure JoinGame where
  entity_id : Nat
  hardcore : Bool
  game_mode : Nat
  previous_game_mode : Nat
  world_names : List Bytes
  dimension_codec : CompoundTag
  dimension : CompoundTag
  world_name : Bytes
  hashed_seed : Nat
  max_players : Nat
  view_distance : Nat
  reduced_debug_info : Bool
  enable_respawn_screen : Bool
  is_debug : Bool
  is_flat : Bool

def JoinGame.decode (bs : Bytes) : DecRes JoinGame :=
  andThen (readUIntBE 4 bs) fun entity_id r₁ =>
  andThen (readBool r₁) fun hardcore r₂ =>
  andThen (readUIntBE 1 r₂) fun game_mode r₃ =>
  andThen (readUIntBE 1 r₃) fun previous_game_mode r₄ =>
  andThen (string_list_decode r₄) fun world_names r₅ =>
  andThen (CompoundTag.decode r₅) fun dimension_codec r₆ =>
  andThen (CompoundTag.decode r₆) fun dimension r₇ =>
  andThen (string_decode 32767 r₇) fun world_name r₈ =>
  andThen (readUIntBE 8 r₈) fun hashed_seed r₉ =>
  andThen (var_int_decode r₉) fun max_players r₁₀ =>
  andThen (var_int_decode r₁₀) fun view_distance r₁₁ =>
  andThen (readBool r₁₁) fun reduced_debug_info r₁₂ =>
  andThen (readBool r₁₂) fun enable_respawn_screen r₁₃ =>
  andThen (readBool r₁₃) fun is_debug r₁₄ =>
  andThen (readBool r₁₄) fun is_flat r₁₅ =>
  .ok ({ entity_id, hardcore, game_mode, previous_game_mode, world_names,
         dimension_codec, dimension, world_name, hashed_seed, max_players,
         view_distance, reduced_debug_info, enable_respawn_screen, is_debug,
         is_flat }, r₁₅)

def JoinGame.encode (p : JoinGame) : Bytes :=
  encUIntBE 4 p.entity_id ++ encBool p.hardcore ++ encUIntBE 1 p.game_mode ++
  encUIntBE 1 p.previous_game_mode ++ string_list_encode p.world_names ++
  CompoundTag.encode p.dimension_codec ++ CompoundTag.encode p.dimension ++
  string_encode p.world_name ++ encUIntBE 8 p.hashed_seed ++
  var_int_encode p.max_players ++ var_int_encode p.view_distance ++
  encBool p.reduced_debug_info ++ encBool p.enable_respawn_screen ++
  encBool p.is_debug ++ encBool p.is_flat

/-- `Respawn`: dimension tree, world name string (max 32767), int64 seed,
two uint8 game modes, three booleans. -/
structure Respawn where
  dimension : CompoundTag
  world_name : Bytes
  hashed_seed : Nat
  game_mode : Nat
  previous_game_mode : Nat
  is_debug : Bool
  is_flat : Bool
  copy_metadata : Bool

def Respawn.decode (bs : Bytes) : DecRes Respawn :=
  andThen (CompoundTag.decode bs) fun dimension r₁ =>
  andThen (string_decode 32767 r₁) fun world_name r₂ =>
  andThen (readUIntBE 8 r₂) fun hashed_seed r₃ =>
  andThen (readUIntBE 1 r₃) fun game_mode r₄ =>
  andThen (readUIntBE 1 r₄) fun previous_game_mode r₅ =>
  andThen (readBool r₅) fun is_debug r₆ =>
  andThen (readBool r₆) fun is_flat r₇ =>
  andThen (readBool r₇) fun copy_metadata r₈ =>
  .ok ({ dimension, world_name, hashed_seed, game_mode, previous_game_mode,
         is_debug, is_flat, copy_metadata }, r₈)

def Respawn.encode (p : Respawn) : Bytes :=
  CompoundTag.encode p.dimension ++ string_encode p.world_name ++
  encUIntBE 8 p.hashed_seed ++ encUIntBE 1 p.game_mode ++
  encUIntBE 1 p.previous_game_mode ++ encBool p.is_debug ++
  encBool p.is_flat ++ encBool p.copy_metadata

/-- `PlayerPositionAndLook`: three float64s, two float32s (raw bit patterns),
uint8 flags, varint teleport id, boolean dismount. -/
structure PlayerPositionAndLook where
  x : Nat
  y : Nat
  z : Nat
  yaw : Nat
  pitch : Nat
  flags : Nat
  teleport_id : Nat
  dismount_vehicle : Bool

def PlayerPositionAndLook.decode (bs : Bytes) : DecRes PlayerPositionAndLook :=
  andThen (readUIntBE 8 bs) fun x r₁ =>
  andThen (readUIntBE 8 r₁) fun y r₂ =>
  andThen (readUIntBE 8 r₂) fun z r₃ =>
  andThen (readUIntBE 4 r₃) fun yaw r₄ =>
  andThen (readUIntBE 4 r₄) fun pitch r₅ =>
  andThen (readUIntBE 1 r₅) fun flags r₆ =>
  andThen (var_int_decode r₆) fun teleport_id r₇ =>
  andThen (readBool r₇) fun dismount_vehicle r₈ =>
  .ok ({ x, y, z, yaw, pitch, flags, teleport_id, dismount_vehicle }, r₈)

def PlayerPositionAndLook.encode (p : PlayerPositionAndLook) : Bytes :=
  encUIntBE 8 p.x ++ encUIntBE 8 p.y ++ encUIntBE 8 p.z ++
  encUIntBE 4 p.yaw ++ encUIntBE 4 p.pitch ++ encUIntBE 1 p.flags ++
  var_int_encode p.teleport_id ++ encBool p.dismount_vehicle

/-- `TimeUpdate`: two int64 fields (raw bit patterns). -/
structure TimeUpdate where
  world_age : Nat
  time_of_day : Nat

def TimeUpdate.decode (bs : Bytes) : DecRes TimeUpdate :=
  andThen (readUIntBE 8 bs) fun world_age r₁ =>
  andThen (readUIntBE 8 r₁) fun time_of_day r₂ =>
  .ok ({ world_age, time_of_day }, r₂)

def TimeUpdate.encode (p : TimeUpdate) : Bytes :=
  encUIntBE 8 p.world_age ++ encUIntBE 8 p.time_of_day

/-- `SetTitleText`: a single chat `Message` field. -/
structure SetTitleText where
  text : Message

def SetTitleText.decode (bs : Bytes) : DecRes SetTitleText :=
  andThen (string_decode_any bs) fun text r₁ =>
  .ok ({ text := text }, r₁)

def SetTitleText.encode (p : SetTitleText) : Bytes :=
  string_encode p.text

/-- `SetTitleSubtitle`: a single chat `Message` field. -/
structure SetTitleSubtitle where
  text : Message

def SetTitleSubtitle.decode (bs : Bytes) : DecRes SetTitleSubtitle :=
  andThen (string_decode_any bs) fun text r₁ =>
  .ok ({ text := text }, r₁)

def SetTitleSubtitle.encode (p : SetTitleSubtitle) : Bytes :=
  string_encode p.text

/-- `SetTitleTimes`: three int32 fields. -/
structure SetTitleTimes where
  fade_in : Nat
  stay : Nat
  fade_out : Nat

def SetTitleTimes.decode (bs : Bytes) : DecRes SetTitleTimes :=
  andThen (readUIntBE 4 bs) fun fade_in r₁ =>
  andThen (readUIntBE 4 r₁) fun stay r₂ =>
  andThen (readUIntBE 4 r₂) fun fade_out r₃ =>
  .ok ({ fade_in, stay, fade_out }, r₃)

def SetTitleTimes.encode (p : SetTitleTimes) : Bytes :=
  encUIntBE 4 p.fade_in ++ encUIntBE 4 p.stay ++ encUIntBE 4 p.fade_out

/-- `SpawnPosition`: an 8-byte big-endian uint64 position then a 4-byte
float32 angle (raw bit pattern). -/
structure SpawnPosition where
  position : Nat
  angle : Nat

def SpawnPosition.decode (bs : Bytes) : DecRes SpawnPosition :=
  andThen (readUIntBE 8 bs) fun position r₁ =>
  andThen (readUIntBE 4 r₁) fun angle r₂ =>
  .ok ({ position, angle }, r₂)

def SpawnPosition.encode (p : SpawnPosition) : Bytes :=
  encUIntBE 8 p.position ++ encUIntBE 4 p.angle

/-! ## Packet schemas re-exported from `v1_14_4/game.rs`
The v1.14.4 module is not part of this repository snapshot, so these layouts
are modelled from the specification, which names the packets (§6) without
giving their field lists; each is given a minimal faithful layout. -/

/-- Modelled from the spec: serverbound chat message — "decodes 1
declared-length-prefixed UTF-8 string field" (§8). -/
structure ServerBoundChatMessage where
  message : Bytes

def ServerBoundChatMessage.decode (bs : Bytes) : DecRes ServerBoundChatMessage :=
  andThen (string_decode_any bs) fun message r₁ =>
  .ok ({ message := message }, r₁)

def ServerBoundChatMessage.encode (p : ServerBoundChatMessage) : Bytes :=
  string_encode p.message

/-- Modelled from the spec: clientbound chat message — a chat `Message` and a
one-byte position; the spec gives no layout beyond "chat message". -/
structure ClientBoundChatMessage where
  message : Message
  position : Nat

def ClientBoundChatMessage.decode (bs : Bytes) : DecRes ClientBoundChatMessage :=
  andThen (string_decode_any bs) fun message r₁ =>
  andThen (readUIntBE 1 r₁) fun position r₂ =>
  .ok ({ message, position }, r₂)

def ClientBoundChatMessage.encode (p : ClientBoundChatMessage) : Bytes :=
  string_encode p.message ++ encUIntBE 1 p.position

/-- Modelled from the spec: serverbound keep-alive; the spec gives no layout,
modelled as a single 64-bit identifier. -/
structure ServerBoundKeepAlive where
  id : Nat

def ServerBoundKeepAlive.decode (bs : Bytes) : DecRes ServerBoundKeepAlive :=
  andThen (readUIntBE 8 bs) fun id r₁ =>
  .ok ({ id := id }, r₁)

def ServerBoundKeepAlive.encode (p : ServerBoundKeepAlive) : Bytes :=
  encUIntBE 8 p.id

/-- Modelled from the spec: clientbound keep-alive; the spec gives no layout,
modelled as a single 64-bit identifier. -/
structure ClientBoundKeepAlive where
  id : Nat

def ClientBoundKeepAlive.decode (bs : Bytes) : DecRes ClientBoundKeepAlive :=
  andThen (readUIntBE 8 bs) fun id r₁ =>
  .ok ({ id := id }, r₁)

def ClientBoundKeepAlive.encode (p : ClientBoundKeepAlive) : Bytes :=
  encUIntBE 8 p.id

/-- Modelled from the spec: serverbound abilities; the spec gives no layout,
modelled as a single flags byte. -/
structure ServerBoundAbilities where
  flags : Nat

def ServerBoundAbilities.decode (bs : Bytes) : DecRes ServerBoundAbilities :=
  andThen (readUIntBE 1 bs) fun flags r₁ =>
  .ok ({ flags := flags }, r₁)

def ServerBoundAbilities.encode (p : ServerBoundAbilities) : Bytes :=
  encUIntBE 1 p.flags

/-- Modelled from the spec: disconnect — a single chat `Message` reason. -/
structure GameDisconnect where
  reason : Message

def GameDisconnect.decode (bs : Bytes) : DecRes GameDisconnect :=
  andThen (string_decode_any bs) fun reason r₁ =>
  .ok ({ reason := reason }, r₁)

def GameDisconnect.encode (p : GameDisconnect) : Bytes :=
  string_encode p.reason

/-- Modelled from the spec: chunk data; the spec gives no layout beyond
"chunk data", modelled as chunk coordinates, a full-section flag, a varint
mask, a heightmap tree and a length-prefixed data blob. -/
structure ChunkData where
  x : Nat
  z : Nat
  full_section : Bool
  primary_mask : Nat
  heights : CompoundTag
  data : Bytes

def ChunkData.decode (bs : Bytes) : DecRes ChunkData :=
  andThen (readUIntBE 4 bs) fun x r₁ =>
  andThen (readUIntBE 4 r₁) fun z r₂ =>
  andThen (readBool r₂) fun full_section r₃ =>
  andThen (var_int_decode r₃) fun primary_mask r₄ =>
  andThen (CompoundTag.decode r₄) fun heights r₅ =>
  andThen (string_decode_any r₅) fun data r₆ =>
  .ok ({ x, z, full_section, primary_mask, heights, data }, r₆)

def ChunkData.encode (p : ChunkData) : Bytes :=
  encUIntBE 4 p.x ++ encUIntBE 4 p.z ++ encBool p.full_section ++
  var_int_encode p.primary_mask ++ CompoundTag.encode p.heights ++
  string_encode p.data

/-- Modelled from the spec: boss bar; the spec gives no layout and the
v1.17.1 dispatch has no decode arm for it, modelled as an opaque payload. -/
structure BossBar where
  data : Bytes

def BossBar.decode (bs : Bytes) : DecRes BossBar :=
  andThen (readToEnd bs) fun data r₁ =>
  .ok ({ data := data }, r₁)

def BossBar.encode (p : BossBar) : Bytes := p.data

/-- Modelled from the spec: entity action; the spec gives no layout and the
v1.17.1 dispatch has no decode arm for it, modelled as an opaque payload. -/
structure EntityAction where
  data : Bytes

def EntityAction.decode (bs : Bytes) : DecRes EntityAction :=
  andThen (readToEnd bs) fun data r₁ =>
  .ok ({ data := data }, r₁)

def EntityAction.encode (p : EntityAction) : Bytes := p.data

/-! ## Dispatch layer (`game.rs` lines 16–183), embedded from the source. -/

/-- The serverbound packet variants, in source declaration order. -/
inductive GameServerBoundPacket where
  | ServerBoundChatMessage (p : ServerBoundChatMessage)
  | ServerBoundPluginMessage (p : ServerBoundPluginMessage)
  | ServerBoundKeepAlive (p : ServerBoundKeepAlive)
  | ServerBoundAbilities (p : ServerBoundAbilities)

/-- The clientbound packet variants, in source declaration order. -/
inductive GameClientBoundPacket where
  | ClientBoundChatMessage (p : ClientBoundChatMessage)
  | JoinGame (p : JoinGame)
  | ClientBoundKeepAlive (p : ClientBoundKeepAlive)
  | ChunkData (p : ChunkData)
  | GameDisconnect (p : GameDisconnect)
  | BossBar (p : BossBar)
  | EntityAction (p : EntityAction)
  | ClientBoundPluginMessage (p : ClientBoundPluginMessage)
  | NamedSoundEffect (p : NamedSoundEffect)
  | Respawn (p : Respawn)
  | PlayerPositionAndLook (p : PlayerPositionAndLook)
  | SpawnPosition (p : SpawnPosition)
  | SetTitleSubtitle (p : SetTitleSubtitle)
  | SetTitleText (p : SetTitleText)
  | TimeUpdate (p : TimeUpdate)
  | SetTitleTimes (p : SetTitleTimes)

/-- `GameServerBoundPacket::get_type_id` (source lines 44–51). -/
def GameServerBoundPacket.get_type_id : GameServerBoundPacket → Nat
  | .ServerBoundChatMessage _ => 0x03
  | .ServerBoundPluginMessage _ => 0x0A
  | .ServerBoundKeepAlive _ => 0x0F
  | .ServerBoundAbilities _ => 0x19

/-- `GameServerBoundPacket::decode` (source lines 53–79): match on the opcode,
delegate to the schema decode, wrap the variant; any other opcode is
`UnknownPacketType` with the reader untouched. -/
def GameServerBoundPacket.decode (type_id : Nat) (bs : Bytes) :
    DecRes GameServerBoundPacket :=
  if type_id = 0x03 then
    andThen (ServerBoundChatMessage.decode bs) fun p r => .ok (.ServerBoundChatMessage p, r)
  else if type_id = 0x0A then
    andThen (ServerBoundPluginMessage.decode bs) fun p r => .ok (.ServerBoundPluginMessage p, r)
  else if type_id = 0x0F then
    andThen (ServerBoundKeepAlive.decode bs) fun p r => .ok (.ServerBoundKeepAlive p, r)
  else if type_id = 0x19 then
    andThen (ServerBoundAbilities.decode bs) fun p r => .ok (.ServerBoundAbilities p, r)
  else .error (.unknownPacketType type_id, bs)

/-- Schema encode of the variant a serverbound decode produced. -/
def GameServerBoundPacket.encode : GameServerBoundPacket → Bytes
  | .ServerBoundChatMessage p => ServerBoundChatMessage.encode p
  | .ServerBoundPluginMessage p => ServerBoundPluginMessage.encode p
  | .ServerBoundKeepAlive p => ServerBoundKeepAlive.encode p
  | .ServerBoundAbilities p => ServerBoundAbilities.encode p

/-- `GameClientBoundPacket::get_type_id` (source lines 83–102); note
`JoinGame ↦ 0x25`, `BossBar ↦ 0x0D`, `EntityAction ↦ 0x1B`. -/
def GameClientBoundPacket.get_type_id : GameClientBoundPacket → Nat
  | .ClientBoundChatMessage _ => 0x0E
  | .ClientBoundPluginMessage _ => 0x18
  | .NamedSoundEffect _ => 0x19
  | .GameDisconnect _ => 0x1A
  | .ClientBoundKeepAlive _ => 0x20
  | .ChunkData _ => 0x21
  | .JoinGame _ => 0x25
  | .BossBar _ => 0x0D
  | .EntityAction _ => 0x1B
  | .PlayerPositionAndLook _ => 0x38
  | .Respawn _ => 0x3D
  | .SpawnPosition _ => 0x4B
  | .SetTitleSubtitle _ => 0x57
  | .TimeUpdate _ => 0x58
  | .SetTitleText _ => 0x59
  | .SetTitleTimes _ => 0x5A

/-- `GameClientBoundPacket::decode` (source lines 104–183): the opcode arms in
source order.  `JoinGame` is dispatched at 0x25; there are no arms for 0x0D
(`BossBar`) or 0x1B (`EntityAction`); any unmatched opcode is
`UnknownPacketType` with the reader untouched. -/
def GameClientBoundPacket.decode (type_id : Nat) (bs : Bytes) :
    DecRes GameClientBoundPacket :=
  if type_id = 0x0E then
    andThen (ClientBoundChatMessage.decode bs) fun p r => .ok (.ClientBoundChatMessage p, r)
  else if type_id = 0x18 then
    andThen (ClientBoundPluginMessage.decode bs) fun p r => .ok (.ClientBoundPluginMessage p, r)
  else if type_id = 0x19 then
    andThen (NamedSoundEffect.decode bs) fun p r => .ok (.NamedSoundEffect p, r)
  else if type_id = 0x1A then
    andThen (GameDisconnect.decode bs) fun p r => .ok (.GameDisconnect p, r)
  else if type_id = 0x20 then
    andThen (ClientBoundKeepAlive.decode bs) fun p r => .ok (.ClientBoundKeepAlive p, r)
  else if type_id = 0x21 then
    andThen (ChunkData.decode bs) fun p r => .ok (.ChunkData p, r)
  else if type_id = 0x25 then
    andThen (JoinGame.decode bs) fun p r => .ok (.JoinGame p, r)
  else if type_id = 0x3D then
    andThen (Respawn.decode bs) fun p r => .ok (.Respawn p, r)
  else if type_id = 0x38 then
    andThen (PlayerPositionAndLook.decode bs) fun p r => .ok (.PlayerPositionAndLook p, r)
  else if type_id = 0x4B then
    andThen (SpawnPosition.decode bs) fun p r => .ok (.SpawnPosition p, r)
  else if type_id = 0x57 then
    andThen (SetTitleSubtitle.decode bs) fun p r => .ok (.SetTitleSubtitle p, r)
  else if type_id = 0x58 then
    andThen (TimeUpdate.decode bs) fun p r => .ok (.TimeUpdate p, r)
  else if type_id = 0x59 then
    andThen (SetTitleText.decode bs) fun p r => .ok (.SetTitleText p, r)
  else if type_id = 0x5A then
    andThen (SetTitleTimes.decode bs) fun p r => .ok (.SetTitleTimes p, r)
  else .error (.unknownPacketType type_id, bs)

/-- Schema encode of the variant a clientbound decode produced. -/
def GameClientBoundPacket.encode : GameClientBoundPacket → Bytes
  | .ClientBoundChatMessage p => ClientBoundChatMessage.encode p
  | .JoinGame p => JoinGame.encode p
  | .ClientBoundKeepAlive p => ClientBoundKeepAlive.encode p
  | .ChunkData p => ChunkData.encode p
  | .GameDisconnect p => GameDisconnect.encode p
  | .BossBar p => BossBar.encode p
  | .EntityAction p => EntityAction.encode p
  | .ClientBoundPluginMessage p => ClientBoundPluginMessage.encode p
  | .NamedSoundEffect p => NamedSoundEffect.encode p
  | .Respawn p => Respawn.encode p
  | .PlayerPositionAndLook p => PlayerPositionAndLook.encode p
  | .SpawnPosition p => SpawnPosition.encode p
  | .SetTitleSubtitle p => SetTitleSubtitle.encode p
  | .SetTitleText p => SetTitleText.encode p
  | .TimeUpdate p => TimeUpdate.encode p
  | .SetTitleTimes p => SetTitleTimes.encode p

/-! ## `trait_packet_id!` constants (source lines 302–313). -/

def ServerBoundPluginMessage.PACKET_ID : Nat := 0x0A
def ClientBoundPluginMessage.PACKET_ID : Nat := 0x18
def NamedSoundEffect.PACKET_ID : Nat := 0x19
def JoinGame.PACKET_ID : Nat := 0x26
def PlayerPositionAndLook.PACKET_ID : Nat := 0x38
def Respawn.PACKET_ID : Nat := 0x3D
def SpawnPosition.PACKET_ID : Nat := 0x4B
def SetTitleSubtitle.PACKET_ID : Nat := 0x57
def TimeUpdate.PACKET_ID : Nat := 0x58
def SetTitleText.PACKET_ID : Nat := 0x59
def SetTitleTimes.PACKET_ID : Nat := 0x5A

/-- The serverbound opcodes registered by `get_type_id` (the epoch registry
for (1.17.1, ServerBound)). -/
def serverBoundRegistry : List Nat := [0x03, 0x0A, 0x0F, 0x19]

/-- The clientbound opcodes registered by `get_type_id` (the epoch registry
for (1.17.1, ClientBound)). -/
def clientBoundRegistry : List Nat :=
  [0x0E, 0x18, 0x19, 0x1A, 0x20, 0x21, 0x25, 0x0D, 0x1B,
   0x38, 0x3D, 0x4B, 0x57, 0x58, 0x59, 0x5A]

/-- Constructor (variant) index of a serverbound packet. -/
def GameServerBoundPacket.ctorIdx : GameServerBoundPacket → Nat
  | .ServerBoundChatMessage _ => 0
  | .ServerBoundPluginMessage _ => 1
  | .ServerBoundKeepAlive _ => 2
  | .ServerBoundAbilities _ => 3

/-- Constructor (variant) index of a clientbound packet. -/
def GameClientBoundPacket.ctorIdx : GameClientBoundPacket → Nat
  | .ClientBoundChatMessage _ => 0
  | .JoinGame _ => 1
  | .ClientBoundKeepAlive _ => 2
  | .ChunkData _ => 3
  | .GameDisconnect _ => 4
  | .BossBar _ => 5
  | .EntityAction _ => 6
  | .ClientBoundPluginMessage _ => 7
  | .NamedSoundEffect _ => 8
  | .Respawn _ => 9
  | .PlayerPositionAndLook _ => 10
  | .SpawnPosition _ => 11
  | .SetTitleSubtitle _ => 12
  | .SetTitleText _ => 13
  | .TimeUpdate _ => 14
  | .SetTitleTimes _ => 15

/-! ## Per-field round-trip steps: each field decode that succeeds consumed
exactly the bytes its own encode reproduces, and leaves a well-formed rest. -/

theorem step_u {w : Nat} {bs : Bytes} {v : Nat} {r : Bytes} (hwf : WfBytes bs)
    (h : readUIntBE w bs = .ok (v, r)) : encUIntBE w v ++ r = bs ∧ WfBytes r := by
  obtain ⟨e, _⟩ := readUIntBE_ok hwf h
  refine ⟨e, ?_⟩
  rw [← e] at hwf
  exact hwf.of_append

theorem step_bool {bs : Bytes} {v : Bool} {r : Bytes} (hwf : WfBytes bs)
    (h : readBool bs = .ok (v, r)) : encBool v ++ r = bs ∧ WfBytes r := by
  have e := readBool_ok h
  refine ⟨e, ?_⟩
  rw [← e] at hwf
  exact hwf.of_append

theorem step_varint {bs : Bytes} {v : Nat} {r : Bytes} (hwf : WfBytes bs)
    (h : var_int_decode bs = .ok (v, r)) :
    var_int_encode v ++ r = bs ∧ WfBytes r := by
  obtain ⟨e, _⟩ := var_int_decode_ok hwf h
  refine ⟨e, ?_⟩
  rw [← e] at hwf
  exact hwf.of_append

theorem step_string {maxLen : Nat} {bs : Bytes} {s : Bytes} {r : Bytes}
    (hwf : WfBytes bs) (h : string_decode maxLen bs = .ok (s, r)) :
    string_encode s ++ r = bs ∧ WfBytes r := by
  obtain ⟨e, _⟩ := string_decode_ok hwf h
  refine ⟨e, ?_⟩
  rw [← e] at hwf
  exact hwf.of_append

theorem step_string_any {bs : Bytes} {s : Bytes} {r : Bytes}
    (hwf : WfBytes bs) (h : string_decode_any bs = .ok (s, r)) :
    string_encode s ++ r = bs ∧ WfBytes r := by
  have e := string_decode_any_ok hwf h
  refine ⟨e, ?_⟩
  rw [← e] at hwf
  exact hwf.of_append

theorem step_slist {bs : Bytes} {l : List Bytes} {r : Bytes}
    (hwf : WfBytes bs) (h : string_list_decode bs = .ok (l, r)) :
    string_list_encode l ++ r = bs ∧ WfBytes r := by
  have e := string_list_decode_ok hwf h
  refine ⟨e, ?_⟩
  rw [← e] at hwf
  exact hwf.of_append

theorem step_tag {bs : Bytes} {t : CompoundTag} {r : Bytes}
    (hwf : WfBytes bs) (h : CompoundTag.decode bs = .ok (t, r)) :
    CompoundTag.encode t ++ r = bs ∧ WfBytes r := by
  have e := CompoundTag.decode_ok hwf h
  refine ⟨e, ?_⟩
  rw [← e] at hwf
  exact hwf.of_append

theorem step_rest {bs : Bytes} {v : Bytes} {r : Bytes} (_hwf : WfBytes bs)
    (h : readToEnd bs = .ok (v, r)) : v ++ r = bs ∧ WfBytes r := by
  simp only [readToEnd, Except.ok.injEq, Prod.mk.injEq] at h
  obtain ⟨h1, h2⟩ := h
  subst h1; subst h2
  exact ⟨by simp, by intro b hb; cases hb⟩

/-! ## Per-packet round trips: a successful schema decode re-encodes to
exactly the consumed bytes. -/

theorem ServerBoundChatMessage_rt {bs : Bytes} {v : ServerBoundChatMessage} {r : Bytes}
    (hwf : WfBytes bs) (h : ServerBoundChatMessage.decode bs = .ok (v, r)) :
    ServerBoundChatMessage.encode v ++ r = bs := by
  unfold ServerBoundChatMessage.decode at h
  obtain ⟨message, r₁, h1, hfin⟩ := andThen_eq_ok h
  clear h
  simp only [Except.ok.injEq, Prod.mk.injEq] at hfin
  obtain ⟨hv, hr⟩ := hfin
  subst hv; subst hr
  obtain ⟨e₁, _⟩ := step_string_any hwf h1
  simp only [ServerBoundChatMessage.encode]
  exact e₁

theorem ServerBoundPluginMessage_rt {bs : Bytes} {v : ServerBoundPluginMessage} {r : Bytes}
    (hwf : WfBytes bs) (h : ServerBoundPluginMessage.decode bs = .ok (v, r)) :
    ServerBoundPluginMessage.encode v ++ r = bs := by
  unfold ServerBoundPluginMessage.decode at h
  obtain ⟨channel, r₁, h1, h2⟩ := andThen_eq_ok h
  clear h
  obtain ⟨data, r₂, h2a, hfin⟩ := andThen_eq_ok h2
  clear h2
  simp only [Except.ok.injEq, Prod.mk.injEq] at hfin
  obtain ⟨hv, hr⟩ := hfin
  subst hv; subst hr
  obtain ⟨e₁, hwf₁⟩ := step_string hwf h1
  obtain ⟨e₂, _⟩ := step_rest hwf₁ h2a
  simp only [ServerBoundPluginMessage.encode, List.append_assoc]
  rw [e₂, e₁]

theorem ServerBoundKeepAlive_rt {bs : Bytes} {v : ServerBoundKeepAlive} {r : Bytes}
    (hwf : WfBytes bs) (h : ServerBoundKeepAlive.decode bs = .ok (v, r)) :
    ServerBoundKeepAlive.encode v ++ r = bs := by
  unfold ServerBoundKeepAlive.decode at h
  obtain ⟨i, r₁, h1, hfin⟩ := andThen_eq_ok h
  clear h
  simp only [Except.ok.injEq, Prod.mk.injEq] at hfin
  obtain ⟨hv, hr⟩ := hfin
  subst hv; subst hr
  obtain ⟨e₁, _⟩ := step_u hwf h1
  simp only [ServerBoundKeepAlive.encode]
  exact e₁

theorem ServerBoundAbilities_rt {bs : Bytes} {v : ServerBoundAbilities} {r : Bytes}
    (hwf : WfBytes bs) (h : ServerBoundAbilities.decode bs = .ok (v, r)) :
    ServerBoundAbilities.encode v ++ r = bs := by
  unfold ServerBoundAbilities.decode at h
  obtain ⟨flags, r₁, h1, hfin⟩ := andThen_eq_ok h
  clear h
  simp only [Except.ok.injEq, Prod.mk.injEq] at hfin
  obtain ⟨hv, hr⟩ := hfin
  subst hv; subst hr
  obtain ⟨e₁, _⟩ := step_u hwf h1
  simp only [ServerBoundAbilities.encode]
  exact e₁

theorem ClientBoundChatMessage_rt {bs : Bytes} {v : ClientBoundChatMessage} {r : Bytes}
    (hwf : WfBytes bs) (h : ClientBoundChatMessage.decode bs = .ok (v, r)) :
    ClientBoundChatMessage.encode v ++ r = bs := by
  unfold ClientBoundChatMessage.decode at h
  obtain ⟨message, r₁, h1, h2⟩ := andThen_eq_ok h
  clear h
  obtain ⟨position, r₂, h2a, hfin⟩ := andThen_eq_ok h2
  clear h2
  simp only [Except.ok.injEq, Prod.mk.injEq] at hfin
  obtain ⟨hv, hr⟩ := hfin
  subst hv; subst hr
  obtain ⟨e₁, hwf₁⟩ := step_string_any hwf h1
  obtain ⟨e₂, _⟩ := step_u hwf₁ h2a
  simp only [ClientBoundChatMessage.encode, List.append_assoc]
  rw [e₂, e₁]

theorem ClientBoundPluginMessage_rt {bs : Bytes} {v : ClientBoundPluginMessage} {r : Bytes}
    (hwf : WfBytes bs) (h : ClientBoundPluginMessage.decode bs = .ok (v, r)) :
    ClientBoundPluginMessage.encode v ++ r = bs := by
  unfold ClientBoundPluginMessage.decode at h
  obtain ⟨channel, r₁, h1, h2⟩ := andThen_eq_ok h
  clear h
  obtain ⟨data, r₂, h2a, hfin⟩ := andThen_eq_ok h2
  clear h2
  simp only [Except.ok.injEq, Prod.mk.injEq] at hfin
  obtain ⟨hv, hr⟩ := hfin
  subst hv; subst hr
  obtain ⟨e₁, hwf₁⟩ := step_string hwf h1
  obtain ⟨e₂, _⟩ := step_rest hwf₁ h2a
  simp only [ClientBoundPluginMessage.encode, List.append_assoc]
  rw [e₂, e₁]

theorem NamedSoundEffect_rt {bs : Bytes} {v : NamedSoundEffect} {r : Bytes}
    (hwf : WfBytes bs) (h : NamedSoundEffect.decode bs = .ok (v, r)) :
    NamedSoundEffect.encode v ++ r = bs := by
  unfold NamedSoundEffect.decode at h
  obtain ⟨sound_name, r₁, h1, h2⟩ := andThen_eq_ok h
  clear h
  obtain ⟨sound_category, r₂, h2a, h3⟩ := andThen_eq_ok h2
  clear h2
  obtain ⟨effect_pos_x, r₃, h3a, h4⟩ := andThen_eq_ok h3
  clear h3
  obtain ⟨effect_pos_y, r₄, h4a, h5⟩ := andThen_eq_ok h4
  clear h4
  obtain ⟨effect_pos_z, r₅, h5a, h6⟩ := andThen_eq_ok h5
  clear h5
  obtain ⟨volume, r₆, h6a, h7⟩ := andThen_eq_ok h6
  clear h6
  obtain ⟨pitch, r₇, h7a, hfin⟩ := andThen_eq_ok h7
  clear h7
  simp only [Except.ok.injEq, Prod.mk.injEq] at hfin
  obtain ⟨hv, hr⟩ := hfin
  subst hv; subst hr
  obtain ⟨e₁, hwf₁⟩ := step_string hwf h1
  obtain ⟨e₂, hwf₂⟩ := step_varint hwf₁ h2a
  obtain ⟨e₃, hwf₃⟩ := step_u hwf₂ h3a
  obtain ⟨e₄, hwf₄⟩ := step_u hwf₃ h4a
  obtain ⟨e₅, hwf₅⟩ := step_u hwf₄ h5a
  obtain ⟨e₆, hwf₆⟩ := step_u hwf₅ h6a
  obtain ⟨e₇, _⟩ := step_u hwf₆ h7a
  simp only [NamedSoundEffect.encode, List.append_assoc]
  rw [e₇, e₆, e₅, e₄, e₃, e₂, e₁]

theorem GameDisconnect_rt {bs : Bytes} {v : GameDisconnect} {r : Bytes}
    (hwf : WfBytes bs) (h : GameDisconnect.decode bs = .ok (v, r)) :
    GameDisconnect.encode v ++ r = bs := by
  unfold GameDisconnect.decode at h
  obtain ⟨reason, r₁, h1, hfin⟩ := andThen_eq_ok h
  clear h
  simp only [Except.ok.injEq, Prod.mk.injEq] at hfin
  obtain ⟨hv, hr⟩ := hfin
  subst hv; subst hr
  obtain ⟨e₁, _⟩ := step_string_any hwf h1
  simp only [GameDisconnect.encode]
  exact e₁

theorem ClientBoundKeepAlive_rt {bs : Bytes} {v : ClientBoundKeepAlive} {r : Bytes}
    (hwf : WfBytes bs) (h : ClientBoundKeepAlive.decode bs = .ok (v, r)) :
    ClientBoundKeepAlive.encode v ++ r = bs := by
  unfold ClientBoundKeepAlive.decode at h
  obtain ⟨i, r₁, h1, hfin⟩ := andThen_eq_ok h
  clear h
  simp only [Except.ok.injEq, Prod.mk.injEq] at hfin
  obtain ⟨hv, hr⟩ := hfin
  subst hv; subst hr
  obtain ⟨e₁, _⟩ := step_u hwf h1
  simp only [ClientBoundKeepAlive.encode]
  exact e₁

theorem ChunkData_rt {bs : Bytes} {v : ChunkData} {r : Bytes}
    (hwf : WfBytes bs) (h : ChunkData.decode bs = .ok (v, r)) :
    ChunkData.encode v ++ r = bs := by
  unfold ChunkData.decode at h
  obtain ⟨x, r₁, h1, h2⟩ := andThen_eq_ok h
  clear h
  obtain ⟨z, r₂, h2a, h3⟩ := andThen_eq_ok h2
  clear h2
  obtain ⟨full_section, r₃, h3a, h4⟩ := andThen_eq_ok h3
  clear h3
  obtain ⟨primary_mask, r₄, h4a, h5⟩ := andThen_eq_ok h4
  clear h4
  obtain ⟨heights, r₅, h5a, h6⟩ := andThen_eq_ok h5
  clear h5
  obtain ⟨data, r₆, h6a, hfin⟩ := andThen_eq_ok h6
  clear h6
  simp only [Except.ok.injEq, Prod.mk.injEq] at hfin
  obtain ⟨hv, hr⟩ := hfin
  subst hv; subst hr
  obtain ⟨e₁, hwf₁⟩ := step_u hwf h1
  obtain ⟨e₂, hwf₂⟩ := step_u hwf₁ h2a
  obtain ⟨e₃, hwf₃⟩ := step_bool hwf₂ h3a
  obtain ⟨e₄, hwf₄⟩ := step_varint hwf₃ h4a
  obtain ⟨e₅, hwf₅⟩ := step_tag hwf₄ h5a
  obtain ⟨e₆, _⟩ := step_string_any hwf₅ h6a
  simp only [ChunkData.encode, List.append_assoc]
  rw [e₆, e₅, e₄, e₃, e₂, e₁]

theorem JoinGame_rt {bs : Bytes} {v : JoinGame} {r : Bytes}
    (hwf : WfBytes bs) (h : JoinGame.decode bs = .ok (v, r)) :
    JoinGame.encode v ++ r = bs := by
  unfold JoinGame.decode at h
  obtain ⟨entity_id, r₁, h1, h2⟩ := andThen_eq_ok h
  clear h
  obtain ⟨hardcore, r₂, h2a, h3⟩ := andThen_eq_ok h2
  clear h2
  obtain ⟨game_mode, r₃, h3a, h4⟩ := andThen_eq_ok h3
  clear h3
  obtain ⟨previous_game_mode, r₄, h4a, h5⟩ := andThen_eq_ok h4
  clear h4
  obtain ⟨world_names, r₅, h5a, h6⟩ := andThen_eq_ok h5
  clear h5
  obtain ⟨dimension_codec, r₆, h6a, h7⟩ := andThen_eq_ok h6
  clear h6
  obtain ⟨dimension, r₇, h7a, h8⟩ := andThen_eq_ok h7
  clear h7
  obtain ⟨world_name, r₈, h8a, h9⟩ := andThen_eq_ok h8
  clear h8
  obtain ⟨hashed_seed, r₉, h9a, h10⟩ := andThen_eq_ok h9
  clear h9
  obtain ⟨max_players, r₁₀, h10a, h11⟩ := andThen_eq_ok h10
  clear h10
  obtain ⟨view_distance, r₁₁, h11a, h12⟩ := andThen_eq_ok h11
  clear h11
  obtain ⟨reduced_debug_info, r₁₂, h12a, h13⟩ := andThen_eq_ok h12
  clear h12
  obtain ⟨enable_respawn_screen, r₁₃, h13a, h14⟩ := andThen_eq_ok h13
  clear h13
  obtain ⟨is_debug, r₁₄, h14a, h15⟩ := andThen_eq_ok h14
  clear h14
  obtain ⟨is_flat, r₁₅, h15a, hfin⟩ := andThen_eq_ok h15
  clear h15
  simp only [Except.ok.injEq, Prod.mk.injEq] at hfin
  obtain ⟨hv, hr⟩ := hfin
  subst hv; subst hr
  obtain ⟨e₁, hwf₁⟩ := step_u hwf h1
  obtain ⟨e₂, hwf₂⟩ := step_bool hwf₁ h2a
  obtain ⟨e₃, hwf₃⟩ := step_u hwf₂ h3a
  obtain ⟨e₄, hwf₄⟩ := step_u hwf₃ h4a
  obtain ⟨e₅, hwf₅⟩ := step_slist hwf₄ h5a
  obtain ⟨e₆, hwf₆⟩ := step_tag hwf₅ h6a
  obtain ⟨e₇, hwf₇⟩ := step_tag hwf₆ h7a
  obtain ⟨e₈, hwf₈⟩ := step_string hwf₇ h8a
  obtain ⟨e₉, hwf₉⟩ := step_u hwf₈ h9a
  obtain ⟨e₁₀, hwf₁₀⟩ := step_varint hwf₉ h10a
  obtain ⟨e₁₁, hwf₁₁⟩ := step_varint hwf₁₀ h11a
  obtain ⟨e₁₂, hwf₁₂⟩ := step_bool hwf₁₁ h12a
  obtain ⟨e₁₃, hwf₁₃⟩ := step_bool hwf₁₂ h13a
  obtain ⟨e₁₄, hwf₁₄⟩ := step_bool hwf₁₃ h14a
  obtain ⟨e₁₅, _⟩ := step_bool hwf₁₄ h15a
  simp only [JoinGame.encode, List.append_assoc]
  rw [e₁₅, e₁₄, e₁₃, e₁₂, e₁₁, e₁₀, e₉, e₈, e₇, e₆, e₅, e₄, e₃, e₂, e₁]

theorem Respawn_rt {bs : Bytes} {v : Respawn} {r : Bytes}
    (hwf : WfBytes bs) (h : Respawn.decode bs = .ok (v, r)) :
    Respawn.encode v ++ r = bs := by
  unfold Respawn.decode at h
  obtain ⟨dimension, r₁, h1, h2⟩ := andThen_eq_ok h
  clear h
  obtain ⟨world_name, r₂, h2a, h3⟩ := andThen_eq_ok h2
  clear h2
  obtain ⟨hashed_seed, r₃, h3a, h4⟩ := andThen_eq_ok h3
  clear h3
  obtain ⟨game_mode, r₄, h4a, h5⟩ := andThen_eq_ok h4
  clear h4
  obtain ⟨previous_game_mode, r₅, h5a, h6⟩ := andThen_eq_ok h5
  clear h5
  obtain ⟨is_debug, r₆, h6a, h7⟩ := andThen_eq_ok h6
  clear h6
  obtain ⟨is_flat, r₇, h7a, h8⟩ := andThen_eq_ok h7
  clear h7
  obtain ⟨copy_metadata, r₈, h8a, hfin⟩ := andThen_eq_ok h8
  clear h8
  simp only [Except.ok.injEq, Prod.mk.injEq] at hfin
  obtain ⟨hv, hr⟩ := hfin
  subst hv; subst hr
  obtain ⟨e₁, hwf₁⟩ := step_tag hwf h1
  obtain ⟨e₂, hwf₂⟩ := step_string hwf₁ h2a
  obtain ⟨e₃, hwf₃⟩ := step_u hwf₂ h3a
  obtain ⟨e₄, hwf₄⟩ := step_u hwf₃ h4a
  obtain ⟨e₅, hwf₅⟩ := step_u hwf₄ h5a
  obtain ⟨e₆, hwf₆⟩ := step_bool hwf₅ h6a
  obtain ⟨e₇, hwf₇⟩ := step_bool hwf₆ h7a
  obtain ⟨e₈, _⟩ := step_bool hwf₇ h8a
  simp only [Respawn.encode, List.append_assoc]
  rw [e₈, e₇, e₆, e₅, e₄, e₃, e₂, e₁]

theorem PlayerPositionAndLook_rt {bs : Bytes} {v : PlayerPositionAndLook} {r : Bytes}
    (hwf : WfBytes bs) (h : PlayerPositionAndLook.decode bs = .ok (v, r)) :
    PlayerPositionAndLook.encode v ++ r = bs := by
  unfold PlayerPositionAndLook.decode at h
  obtain ⟨x, r₁, h1, h2⟩ := andThen_eq_ok h
  clear h
  obtain ⟨y, r₂, h2a, h3⟩ := andThen_eq_ok h2
  clear h2
  obtain ⟨z, r₃, h3a, h4⟩ := andThen_eq_ok h3
  clear h3
  obtain ⟨yaw, r₄, h4a, h5⟩ := andThen_eq_ok h4
  clear h4
  obtain ⟨pitch, r₅, h5a, h6⟩ := andThen_eq_ok h5
  clear h5
  obtain ⟨flags, r₆, h6a, h7⟩ := andThen_eq_ok h6
  clear h6
  obtain ⟨teleport_id, r₇, h7a, h8⟩ := andThen_eq_ok h7
  clear h7
  obtain ⟨dismount_vehicle, r₈, h8a, hfin⟩ := andThen_eq_ok h8
  clear h8
  simp only [Except.ok.injEq, Prod.mk.injEq] at hfin
  obtain ⟨hv, hr⟩ := hfin
  subst hv; subst hr
  obtain ⟨e₁, hwf₁⟩ := step_u hwf h1
  obtain ⟨e₂, hwf₂⟩ := step_u hwf₁ h2a
  obtain ⟨e₃, hwf₃⟩ := step_u hwf₂ h3a
  obtain ⟨e₄, hwf₄⟩ := step_u hwf₃ h4a
  obtain ⟨e₅, hwf₅⟩ := step_u hwf₄ h5a
  obtain ⟨e₆, hwf₆⟩ := step_u hwf₅ h6a
  obtain ⟨e₇, hwf₇⟩ := step_varint hwf₆ h7a
  obtain ⟨e₈, _⟩ := step_bool hwf₇ h8a
  simp only [PlayerPositionAndLook.encode, List.append_assoc]
  rw [e₈, e₇, e₆, e₅, e₄, e₃, e₂, e₁]

theorem SpawnPosition_rt {bs : Bytes} {v : SpawnPosition} {r : Bytes}
    (hwf : WfBytes bs) (h : SpawnPosition.decode bs = .ok (v, r)) :
    SpawnPosition.encode v ++ r = bs := by
  unfold SpawnPosition.decode at h
  obtain ⟨position, r₁, h1, h2⟩ := andThen_eq_ok h
  clear h
  obtain ⟨angle, r₂, h2a, hfin⟩ := andThen_eq_ok h2
  clear h2
  simp only [Except.ok.injEq, Prod.mk.injEq] at hfin
  obtain ⟨hv, hr⟩ := hfin
  subst hv; subst hr
  obtain ⟨e₁, hwf₁⟩ := step_u hwf h1
  obtain ⟨e₂, _⟩ := step_u hwf₁ h2a
  simp only [SpawnPosition.encode, List.append_assoc]
  rw [e₂, e₁]

theorem SetTitleSubtitle_rt {bs : Bytes} {v : SetTitleSubtitle} {r : Bytes}
    (hwf : WfBytes bs) (h : SetTitleSubtitle.decode bs = .ok (v, r)) :
    SetTitleSubtitle.encode v ++ r = bs := by
  unfold SetTitleSubtitle.decode at h
  obtain ⟨text, r₁, h1, hfin⟩ := andThen_eq_ok h
  clear h
  simp only [Except.ok.injEq, Prod.mk.injEq] at hfin
  obtain ⟨hv, hr⟩ := hfin
  subst hv; subst hr
  obtain ⟨e₁, _⟩ := step_string_any hwf h1
  simp only [SetTitleSubtitle.encode]
  exact e₁

theorem SetTitleText_rt {bs : Bytes} {v : SetTitleText} {r : Bytes}
    (hwf : WfBytes bs) (h : SetTitleText.decode bs = .ok (v, r)) :
    SetTitleText.encode v ++ r = bs := by
  unfold SetTitleText.decode at h
  obtain ⟨text, r₁, h1, hfin⟩ := andThen_eq_ok h
  clear h
  simp only [Except.ok.injEq, Prod.mk.injEq] at hfin
  obtain ⟨hv, hr⟩ := hfin
  subst hv; subst hr
  obtain ⟨e₁, _⟩ := step_string_any hwf h1
  simp only [SetTitleText.encode]
  exact e₁

theorem TimeUpdate_rt {bs : Bytes} {v : TimeUpdate} {r : Bytes}
    (hwf : WfBytes bs) (h : TimeUpdate.decode bs = .ok (v, r)) :
    TimeUpdate.encode v ++ r = bs := by
  unfold TimeUpdate.decode at h
  obtain ⟨world_age, r₁, h1, h2⟩ := andThen_eq_ok h
  clear h
  obtain ⟨time_of_day, r₂, h2a, hfin⟩ := andThen_eq_ok h2
  clear h2
  simp only [Except.ok.injEq, Prod.mk.injEq] at hfin
  obtain ⟨hv, hr⟩ := hfin
  subst hv; subst hr
  obtain ⟨e₁, hwf₁⟩ := step_u hwf h1
  obtain ⟨e₂, _⟩ := step_u hwf₁ h2a
  simp only [TimeUpdate.encode, List.append_assoc]
  rw [e₂, e₁]

theorem SetTitleTimes_rt {bs : Bytes} {v : SetTitleTimes} {r : Bytes}
    (hwf : WfBytes bs) (h : SetTitleTimes.decode bs = .ok (v, r)) :
    SetTitleTimes.encode v ++ r = bs := by
  unfold SetTitleTimes.decode at h
  obtain ⟨fade_in, r₁, h1, h2⟩ := andThen_eq_ok h
  clear h
  obtain ⟨stay, r₂, h2a, h3⟩ := andThen_eq_ok h2
  clear h2
  obtain ⟨fade_out, r₃, h3a, hfin⟩ := andThen_eq_ok h3
  clear h3
  simp only [Except.ok.injEq, Prod.mk.injEq] at hfin
  obtain ⟨hv, hr⟩ := hfin
  subst hv; subst hr
  obtain ⟨e₁, hwf₁⟩ := step_u hwf h1
  obtain ⟨e₂, hwf₂⟩ := step_u hwf₁ h2a
  obtain ⟨e₃, _⟩ := step_u hwf₂ h3a
  simp only [SetTitleTimes.encode, List.append_assoc]
  rw [e₃, e₂, e₁]

/-! ## Dispatch-level round trip. -/

theorem wrap_ok {α γ : Type} {dec : Bytes → DecRes α} {g : α → γ}
    {encP : γ → Bytes} {enc : α → Bytes}
    (hrt : ∀ {bs v r}, WfBytes bs → dec bs = .ok (v, r) → enc v ++ r = bs)
    {bs : Bytes} {v : γ} {r : Bytes} (hwf : WfBytes bs)
    (h : andThen (dec bs) (fun p r => .ok (g p, r)) = .ok (v, r))
    (hg : ∀ p, encP (g p) = enc p) :
    encP v ++ r = bs := by
  obtain ⟨p, r₁, hp, hfin⟩ := andThen_eq_ok h
  simp only [Except.ok.injEq, Prod.mk.injEq] at hfin
  obtain ⟨hv, hr⟩ := hfin
  subst hv; subst hr
  rw [hg]
  exact hrt hwf hp

theorem sb_arm_0x03 (bs : Bytes) : GameServerBoundPacket.decode 0x03 bs =
    andThen (ServerBoundChatMessage.decode bs) (fun p r => .ok (.ServerBoundChatMessage p, r)) := rfl

theorem sb_arm_0x0A (bs : Bytes) : GameServerBoundPacket.decode 0x0A bs =
    andThen (ServerBoundPluginMessage.decode bs) (fun p r => .ok (.ServerBoundPluginMessage p, r)) := rfl

theorem sb_arm_0x0F (bs : Bytes) : GameServerBoundPacket.decode 0x0F bs =
    andThen (ServerBoundKeepAlive.decode bs) (fun p r => .ok (.ServerBoundKeepAlive p, r)) := rfl

theorem sb_arm_0x19 (bs : Bytes) : GameServerBoundPacket.decode 0x19 bs =
    andThen (ServerBoundAbilities.decode bs) (fun p r => .ok (.ServerBoundAbilities p, r)) := rfl

theorem cb_arm_0x0E (bs : Bytes) : GameClientBoundPacket.decode 0x0E bs =
    andThen (ClientBoundChatMessage.decode bs) (fun p r => .ok (.ClientBoundChatMessage p, r)) := rfl

theorem cb_arm_0x18 (bs : Bytes) : GameClientBoundPacket.decode 0x18 bs =
    andThen (ClientBoundPluginMessage.decode bs) (fun p r => .ok (.ClientBoundPluginMessage p, r)) := rfl

theorem cb_arm_0x19 (bs : Bytes) : GameClientBoundPacket.decode 0x19 bs =
    andThen (NamedSoundEffect.decode bs) (fun p r => .ok (.NamedSoundEffect p, r)) := rfl

theorem cb_arm_0x1A (bs : Bytes) : GameClientBoundPacket.decode 0x1A bs =
    andThen (GameDisconnect.decode bs) (fun p r => .ok (.GameDisconnect p, r)) := rfl

theorem cb_arm_0x20 (bs : Bytes) : GameClientBoundPacket.decode 0x20 bs =
    andThen (ClientBoundKeepAlive.decode bs) (fun p r => .ok (.ClientBoundKeepAlive p, r)) := rfl

theorem cb_arm_0x21 (bs : Bytes) : GameClientBoundPacket.decode 0x21 bs =
    andThen (ChunkData.decode bs) (fun p r => .ok (.ChunkData p, r)) := rfl

theorem cb_arm_0x25 (bs : Bytes) : GameClientBoundPacket.decode 0x25 bs =
    andThen (JoinGame.decode bs) (fun p r => .ok (.JoinGame p, r)) := rfl

theorem cb_arm_0x3D (bs : Bytes) : GameClientBoundPacket.decode 0x3D bs =
    andThen (Respawn.decode bs) (fun p r => .ok (.Respawn p, r)) := rfl

theorem cb_arm_0x38 (bs : Bytes) : GameClientBoundPacket.decode 0x38 bs =
    andThen (PlayerPositionAndLook.decode bs) (fun p r => .ok (.PlayerPositionAndLook p, r)) := rfl

theorem cb_arm_0x4B (bs : Bytes) : GameClientBoundPacket.decode 0x4B bs =
    andThen (SpawnPosition.decode bs) (fun p r => .ok (.SpawnPosition p, r)) := rfl

theorem cb_arm_0x57 (bs : Bytes) : GameClientBoundPacket.decode 0x57 bs =
    andThen (SetTitleSubtitle.decode bs) (fun p r => .ok (.SetTitleSubtitle p, r)) := rfl

theorem cb_arm_0x58 (bs : Bytes) : GameClientBoundPacket.decode 0x58 bs =
    andThen (TimeUpdate.decode bs) (fun p r => .ok (.TimeUpdate p, r)) := rfl

theorem cb_arm_0x59 (bs : Bytes) : GameClientBoundPacket.decode 0x59 bs =
    andThen (SetTitleText.decode bs) (fun p r => .ok (.SetTitleText p, r)) := rfl

theorem cb_arm_0x5A (bs : Bytes) : GameClientBoundPacket.decode 0x5A bs =
    andThen (SetTitleTimes.decode bs) (fun p r => .ok (.SetTitleTimes p, r)) := rfl

theorem serverBound_decode_unknown (t : Nat) (bs : Bytes)
    (h1 : t ≠ 0x03) (h2 : t ≠ 0x0A) (h3 : t ≠ 0x0F) (h4 : t ≠ 0x19) :
    GameServerBoundPacket.decode t bs = .error (.unknownPacketType t, bs) := by
  unfold GameServerBoundPacket.decode
  rw [if_neg h1, if_neg h2, if_neg h3, if_neg h4]

theorem clientBound_decode_unknown (t : Nat) (bs : Bytes)
    (h1 : t ≠ 0x0E) (h2 : t ≠ 0x18) (h3 : t ≠ 0x19) (h4 : t ≠ 0x1A)
    (h5 : t ≠ 0x20) (h6 : t ≠ 0x21) (h7 : t ≠ 0x25) (h8 : t ≠ 0x3D)
    (h9 : t ≠ 0x38) (h10 : t ≠ 0x4B) (h11 : t ≠ 0x57) (h12 : t ≠ 0x58)
    (h13 : t ≠ 0x59) (h14 : t ≠ 0x5A) :
    GameClientBoundPacket.decode t bs = .error (.unknownPacketType t, bs) := by
  unfold GameClientBoundPacket.decode
  rw [if_neg h1, if_neg h2, if_neg h3, if_neg h4, if_neg h5, if_neg h6, if_neg h7,
    if_neg h8, if_neg h9, if_neg h10, if_neg h11, if_neg h12, if_neg h13, if_neg h14]

theorem serverBound_decode_rt {t : Nat} {bs : Bytes}
    {v : GameServerBoundPacket} {r : Bytes}
    (hwf : WfBytes bs) (h : GameServerBoundPacket.decode t bs = .ok (v, r)) :
    GameServerBoundPacket.encode v ++ r = bs := by
  by_cases hc0x03 : t = 0x03
  · subst hc0x03
    rw [sb_arm_0x03] at h
    exact wrap_ok ServerBoundChatMessage_rt hwf h (fun p => rfl)
  by_cases hc0x0A : t = 0x0A
  · subst hc0x0A
    rw [sb_arm_0x0A] at h
    exact wrap_ok ServerBoundPluginMessage_rt hwf h (fun p => rfl)
  by_cases hc0x0F : t = 0x0F
  · subst hc0x0F
    rw [sb_arm_0x0F] at h
    exact wrap_ok ServerBoundKeepAlive_rt hwf h (fun p => rfl)
  by_cases hc0x19 : t = 0x19
  · subst hc0x19
    rw [sb_arm_0x19] at h
    exact wrap_ok ServerBoundAbilities_rt hwf h (fun p => rfl)
  rw [serverBound_decode_unknown t bs hc0x03 hc0x0A hc0x0F hc0x19] at h
  exact Except.noConfusion h

theorem clientBound_decode_rt {t : Nat} {bs : Bytes}
    {v : GameClientBoundPacket} {r : Bytes}
    (hwf : WfBytes bs) (h : GameClientBoundPacket.decode t bs = .ok (v, r)) :
    GameClientBoundPacket.encode v ++ r = bs := by
  by_cases hc0x0E : t = 0x0E
  · subst hc0x0E
    rw [cb_arm_0x0E] at h
    exact wrap_ok ClientBoundChatMessage_rt hwf h (fun p => rfl)
  by_cases hc0x18 : t = 0x18
  · subst hc0x18
    rw [cb_arm_0x18] at h
    exact wrap_ok ClientBoundPluginMessage_rt hwf h (fun p => rfl)
  by_cases hc0x19 : t = 0x19
  · subst hc0x19
    rw [cb_arm_0x19] at h
    exact wrap_ok NamedSoundEffect_rt hwf h (fun p => rfl)
  by_cases hc0x1A : t = 0x1A
  · subst hc0x1A
    rw [cb_arm_0x1A] at h
    exact wrap_ok GameDisconnect_rt hwf h (fun p => rfl)
  by_cases hc0x20 : t = 0x20
  · subst hc0x20
    rw [cb_arm_0x20] at h
    exact wrap_ok ClientBoundKeepAlive_rt hwf h (fun p => rfl)
  by_cases hc0x21 : t = 0x21
  · subst hc0x21
    rw [cb_arm_0x21] at h
    exact wrap_ok ChunkData_rt hwf h (fun p => rfl)
  by_cases hc0x25 : t = 0x25
  · subst hc0x25
    rw [cb_arm_0x25] at h
    exact wrap_ok JoinGame_rt hwf h (fun p => rfl)
  by_cases hc0x3D : t = 0x3D
  · subst hc0x3D
    rw [cb_arm_0x3D] at h
    exact wrap_ok Respawn_rt hwf h (fun p => rfl)
  by_cases hc0x38 : t = 0x38
  · subst hc0x38
    rw [cb_arm_0x38] at h
    exact wrap_ok PlayerPositionAndLook_rt hwf h (fun p => rfl)
  by_cases hc0x4B : t = 0x4B
  · subst hc0x4B
    rw [cb_arm_0x4B] at h
    exact wrap_ok SpawnPosition_rt hwf h (fun p => rfl)
  by_cases hc0x57 : t = 0x57
  · subst hc0x57
    rw [cb_arm_0x57] at h
    exact wrap_ok SetTitleSubtitle_rt hwf h (fun p => rfl)
  by_cases hc0x58 : t = 0x58
  · subst hc0x58
    rw [cb_arm_0x58] at h
    exact wrap_ok TimeUpdate_rt hwf h (fun p => rfl)
  by_cases hc0x59 : t = 0x59
  · subst hc0x59
    rw [cb_arm_0x59] at h
    exact wrap_ok SetTitleText_rt hwf h (fun p => rfl)
  by_cases hc0x5A : t = 0x5A
  · subst hc0x5A
    rw [cb_arm_0x5A] at h
    exact wrap_ok SetTitleTimes_rt hwf h (fun p => rfl)
  rw [clientBound_decode_unknown t bs hc0x0E hc0x18 hc0x19 hc0x1A hc0x20
    hc0x21 hc0x25 hc0x3D hc0x38 hc0x4B hc0x57 hc0x58 hc0x59 hc0x5A] at h
  exact Except.noConfusion h

/-- Extracting `get_type_id` of a wrapped decode result. -/
theorem wrap_tid {α γ : Type} {dec : Bytes → DecRes α} {g : α → γ}
    {tid : γ → Nat} {c : Nat}
    {bs : Bytes} {v : γ} {r : Bytes}
    (h : andThen (dec bs) (fun p r => .ok (g p, r)) = .ok (v, r))
    (hg : ∀ p, tid (g p) = c) :
    tid v = c := by
  obtain ⟨p, r₁, hp, hfin⟩ := andThen_eq_ok h
  simp only [Except.ok.injEq, Prod.mk.injEq] at hfin
  obtain ⟨hv, _⟩ := hfin
  subst hv
  exact hg p

/-- Mapping a schema decode result into a variant: success is wrapped, an
error passes through unchanged. -/
def mapRes {α β : Type} (f : α → β) : DecRes α → DecRes β
  | .error e => .error e
  | .ok (a, r) => .ok (f a, r)

theorem andThen_wrap_eq_mapRes {α β : Type} (x : DecRes α) (f : α → β) :
    (andThen x fun p r => .ok (f p, r)) = mapRes f x := by
  cases x with
  | error e => rfl
  | ok p => rfl

/-! ## Claim theorems. -/

/-- Claim C1: for every opcode accepted by `GameServerBoundPacket.decode` or
`GameClientBoundPacket.decode` and every well-formed byte sequence matching
that opcode's packet schema (that is, on which the decode succeeds), encoding
the decoded packet value reproduces exactly the consumed bytes: the encode
followed by the unread rest is the original input. -/
theorem decode_encode_roundtrip (t : Nat) (bs : Bytes) (hwf : WfBytes bs) :
    (∀ v r, GameServerBoundPacket.decode t bs = .ok (v, r) →
      GameServerBoundPacket.encode v ++ r = bs) ∧
    (∀ v r, GameClientBoundPacket.decode t bs = .ok (v, r) →
      GameClientBoundPacket.encode v ++ r = bs) :=
  ⟨fun _ _ h => serverBound_decode_rt hwf h,
   fun _ _ h => clientBound_decode_rt hwf h⟩

/-- Witness for C1, the spec's scenario: ClientBound opcode 0x4B on the
12-byte sequence (8-byte big-endian uint64 1234, float32 bit pattern
0x41F00000) decodes to `SpawnPosition` and re-encodes to the same 12 bytes. -/
theorem decode_encode_roundtrip_witness :
    GameClientBoundPacket.decode 0x4B [0, 0, 0, 0, 0, 0, 4, 210, 65, 240, 0, 0] =
      .ok (.SpawnPosition { position := 1234, angle := 1106247680 }, []) ∧
    GameClientBoundPacket.encode
        (.SpawnPosition { position := 1234, angle := 1106247680 }) ++ [] =
      [0, 0, 0, 0, 0, 0, 4, 210, 65, 240, 0, 0] :=
  ⟨rfl, (decode_encode_roundtrip 0x4B [0, 0, 0, 0, 0, 0, 4, 210, 65, 240, 0, 0]
    (by decide)).2 (.SpawnPosition { position := 1234, angle := 1106247680 }) [] rfl⟩

/-- Claim C2: whenever `GameServerBoundPacket.decode` or
`GameClientBoundPacket.decode` returns a packet value for opcode `t`,
`get_type_id` of that value is exactly `t`. -/
theorem get_type_id_inverse (t : Nat) (bs : Bytes) :
    (∀ v r, GameServerBoundPacket.decode t bs = .ok (v, r) →
      GameServerBoundPacket.get_type_id v = t) ∧
    (∀ v r, GameClientBoundPacket.decode t bs = .ok (v, r) →
      GameClientBoundPacket.get_type_id v = t) := by
  constructor
  · intro v r h
    by_cases hc1 : t = 0x03
    · subst hc1; rw [sb_arm_0x03] at h; exact wrap_tid h (fun p => rfl)
    by_cases hc2 : t = 0x0A
    · subst hc2; rw [sb_arm_0x0A] at h; exact wrap_tid h (fun p => rfl)
    by_cases hc3 : t = 0x0F
    · subst hc3; rw [sb_arm_0x0F] at h; exact wrap_tid h (fun p => rfl)
    by_cases hc4 : t = 0x19
    · subst hc4; rw [sb_arm_0x19] at h; exact wrap_tid h (fun p => rfl)
    rw [serverBound_decode_unknown t bs hc1 hc2 hc3 hc4] at h
    exact Except.noConfusion h
  · intro v r h
    by_cases hc1 : t = 0x0E
    · subst hc1; rw [cb_arm_0x0E] at h; exact wrap_tid h (fun p => rfl)
    by_cases hc2 : t = 0x18
    · subst hc2; rw [cb_arm_0x18] at h; exact wrap_tid h (fun p => rfl)
    by_cases hc3 : t = 0x19
    · subst hc3; rw [cb_arm_0x19] at h; exact wrap_tid h (fun p => rfl)
    by_cases hc4 : t = 0x1A
    · subst hc4; rw [cb_arm_0x1A] at h; exact wrap_tid h (fun p => rfl)
    by_cases hc5 : t = 0x20
    · subst hc5; rw [cb_arm_0x20] at h; exact wrap_tid h (fun p => rfl)
    by_cases hc6 : t = 0x21
    · subst hc6; rw [cb_arm_0x21] at h; exact wrap_tid h (fun p => rfl)
    by_cases hc7 : t = 0x25
    · subst hc7; rw [cb_arm_0x25] at h; exact wrap_tid h (fun p => rfl)
    by_cases hc8 : t = 0x3D
    · subst hc8; rw [cb_arm_0x3D] at h; exact wrap_tid h (fun p => rfl)
    by_cases hc9 : t = 0x38
    · subst hc9; rw [cb_arm_0x38] at h; exact wrap_tid h (fun p => rfl)
    by_cases hc10 : t = 0x4B
    · subst hc10; rw [cb_arm_0x4B] at h; exact wrap_tid h (fun p => rfl)
    by_cases hc11 : t = 0x57
    · subst hc11; rw [cb_arm_0x57] at h; exact wrap_tid h (fun p => rfl)
    by_cases hc12 : t = 0x58
    · subst hc12; rw [cb_arm_0x58] at h; exact wrap_tid h (fun p => rfl)
    by_cases hc13 : t = 0x59
    · subst hc13; rw [cb_arm_0x59] at h; exact wrap_tid h (fun p => rfl)
    by_cases hc14 : t = 0x5A
    · subst hc14; rw [cb_arm_0x5A] at h; exact wrap_tid h (fun p => rfl)
    rw [clientBound_decode_unknown t bs hc1 hc2 hc3 hc4 hc5 hc6 hc7
      hc8 hc9 hc10 hc11 hc12 hc13 hc14] at h
    exact Except.noConfusion h

/-- Witness for C2: decoding opcode 0x58 (16 zero bytes) yields a
`TimeUpdate` whose `get_type_id` is 0x58. -/
theorem get_type_id_inverse_witness :
    GameClientBoundPacket.get_type_id
      (.TimeUpdate { world_age := 0, time_of_day := 0 }) = 0x58 :=
  (get_type_id_inverse 0x58 [0, 0, 0, 0, 0, 0, 0, 0, 0, 0, 0, 0, 0, 0, 0, 0]).2
    (.TimeUpdate { world_age := 0, time_of_day := 0 }) [] rfl

/-- Claim C3: decoding an opcode absent from the direction's registry fails
with `UnknownPacketType` carrying exactly that opcode, whatever the byte
content. -/
theorem unknown_opcode_exact (t : Nat) (bs : Bytes) :
    (t ∉ serverBoundRegistry →
      ∃ st, GameServerBoundPacket.decode t bs = .error (.unknownPacketType t, st)) ∧
    (t ∉ clientBoundRegistry →
      ∃ st, GameClientBoundPacket.decode t bs = .error (.unknownPacketType t, st)) := by
  constructor
  · intro hm
    simp only [serverBoundRegistry, List.mem_cons, List.not_mem_nil, or_false,
      not_or] at hm
    obtain ⟨h1, h2, h3, h4⟩ := hm
    exact ⟨bs, serverBound_decode_unknown t bs h1 h2 h3 h4⟩
  · intro hm
    simp only [clientBoundRegistry, List.mem_cons, List.not_mem_nil, or_false,
      not_or] at hm
    obtain ⟨h1, h2, h3, h4, h5, h6, h7, _h0D, _h1B, h9, h8, h10, h11, h12, h13, h14⟩ := hm
    exact ⟨bs, clientBound_decode_unknown t bs h1 h2 h3 h4 h5 h6 h7
      h8 h9 h10 h11 h12 h13 h14⟩

/-- Witness for C3, the spec's scenario: ServerBound opcode 0xFF yields
`UnknownPacketType{0xFF}` on an arbitrary payload. -/
theorem unknown_opcode_exact_witness :
    ∃ st, GameServerBoundPacket.decode 0xFF [1, 2, 3] =
      .error (.unknownPacketType 0xFF, st) :=
  (unknown_opcode_exact 0xFF [1, 2, 3]).1 (by decide)

/-- Claim C10: on the `UnknownPacketType` path the byte source is untouched —
the error carries the reader state, and it is exactly the original input. -/
theorem unknown_opcode_reads_nothing (t : Nat) (bs : Bytes) :
    (t ∉ serverBoundRegistry →
      GameServerBoundPacket.decode t bs = .error (.unknownPacketType t, bs)) ∧
    (t ∉ clientBoundRegistry →
      GameClientBoundPacket.decode t bs = .error (.unknownPacketType t, bs)) := by
  constructor
  · intro hm
    simp only [serverBoundRegistry, List.mem_cons, List.not_mem_nil, or_false,
      not_or] at hm
    obtain ⟨h1, h2, h3, h4⟩ := hm
    exact serverBound_decode_unknown t bs h1 h2 h3 h4
  · intro hm
    simp only [clientBoundRegistry, List.mem_cons, List.not_mem_nil, or_false,
      not_or] at hm
    obtain ⟨h1, h2, h3, h4, h5, h6, h7, _h0D, _h1B, h9, h8, h10, h11, h12, h13, h14⟩ := hm
    exact clientBound_decode_unknown t bs h1 h2 h3 h4 h5 h6 h7
      h8 h9 h10 h11 h12 h13 h14

/-- Witness for C10: ClientBound opcode 0x80 on `[9, 9]` fails with the
reader state equal to the untouched input. -/
theorem unknown_opcode_reads_nothing_witness :
    GameClientBoundPacket.decode 0x80 [9, 9] =
      .error (.unknownPacketType 0x80, [9, 9]) :=
  (unknown_opcode_reads_nothing 0x80 [9, 9]).2 (by decide)

set_option maxHeartbeats 1000000 in
/-- Claim C6: within one direction, opcodes are unique — two packet variants
built from different constructors always have different `get_type_id`. -/
theorem opcode_uniqueness :
    (∀ v w : GameServerBoundPacket, v.ctorIdx ≠ w.ctorIdx →
      v.get_type_id ≠ w.get_type_id) ∧
    (∀ v w : GameClientBoundPacket, v.ctorIdx ≠ w.ctorIdx →
      v.get_type_id ≠ w.get_type_id) := by
  constructor
  · intro v w hne
    cases v <;> cases w <;>
      simp_all [GameServerBoundPacket.ctorIdx, GameServerBoundPacket.get_type_id]
  · intro v w hne
    cases v <;> cases w <;>
      simp_all [GameClientBoundPacket.ctorIdx, GameClientBoundPacket.get_type_id]

/-- Witness for C6: two concrete distinct variants per direction have
distinct opcodes. -/
theorem opcode_uniqueness_witness :
    GameServerBoundPacket.get_type_id (.ServerBoundKeepAlive { id := 0 }) ≠
      GameServerBoundPacket.get_type_id (.ServerBoundAbilities { flags := 0 }) ∧
    GameClientBoundPacket.get_type_id
        (.TimeUpdate { world_age := 0, time_of_day := 0 }) ≠
      GameClientBoundPacket.get_type_id
        (.SetTitleTimes { fade_in := 0, stay := 0, fade_out := 0 }) :=
  ⟨opcode_uniqueness.1 _ _ (by decide), opcode_uniqueness.2 _ _ (by decide)⟩

/-- Claim C9: for every recognized opcode the dispatch decode is exactly the
schema decode with the success wrapped into the matching variant and any
field-level error passed through unchanged (`mapRes`); in particular no
partial packet value is ever produced. -/
theorem decode_error_passthrough (bs : Bytes) :
    GameServerBoundPacket.decode 0x03 bs =
      mapRes GameServerBoundPacket.ServerBoundChatMessage (ServerBoundChatMessage.decode bs) ∧
    GameServerBoundPacket.decode 0x0A bs =
      mapRes GameServerBoundPacket.ServerBoundPluginMessage (ServerBoundPluginMessage.decode bs) ∧
    GameServerBoundPacket.decode 0x0F bs =
      mapRes GameServerBoundPacket.ServerBoundKeepAlive (ServerBoundKeepAlive.decode bs) ∧
    GameServerBoundPacket.decode 0x19 bs =
      mapRes GameServerBoundPacket.ServerBoundAbilities (ServerBoundAbilities.decode bs) ∧
    GameClientBoundPacket.decode 0x0E bs =
      mapRes GameClientBoundPacket.ClientBoundChatMessage (ClientBoundChatMessage.decode bs) ∧
    GameClientBoundPacket.decode 0x18 bs =
      mapRes GameClientBoundPacket.ClientBoundPluginMessage (ClientBoundPluginMessage.decode bs) ∧
    GameClientBoundPacket.decode 0x19 bs =
      mapRes GameClientBoundPacket.NamedSoundEffect (NamedSoundEffect.decode bs) ∧
    GameClientBoundPacket.decode 0x1A bs =
      mapRes GameClientBoundPacket.GameDisconnect (GameDisconnect.decode bs) ∧
    GameClientBoundPacket.decode 0x20 bs =
      mapRes GameClientBoundPacket.ClientBoundKeepAlive (ClientBoundKeepAlive.decode bs) ∧
    GameClientBoundPacket.decode 0x21 bs =
      mapRes GameClientBoundPacket.ChunkData (ChunkData.decode bs) ∧
    GameClientBoundPacket.decode 0x25 bs =
      mapRes GameClientBoundPacket.JoinGame (JoinGame.decode bs) ∧
    GameClientBoundPacket.decode 0x3D bs =
      mapRes GameClientBoundPacket.Respawn (Respawn.decode bs) ∧
    GameClientBoundPacket.decode 0x38 bs =
      mapRes GameClientBoundPacket.PlayerPositionAndLook (PlayerPositionAndLook.decode bs) ∧
    GameClientBoundPacket.decode 0x4B bs =
      mapRes GameClientBoundPacket.SpawnPosition (SpawnPosition.decode bs) ∧
    GameClientBoundPacket.decode 0x57 bs =
      mapRes GameClientBoundPacket.SetTitleSubtitle (SetTitleSubtitle.decode bs) ∧
    GameClientBoundPacket.decode 0x58 bs =
      mapRes GameClientBoundPacket.TimeUpdate (TimeUpdate.decode bs) ∧
    GameClientBoundPacket.decode 0x59 bs =
      mapRes GameClientBoundPacket.SetTitleText (SetTitleText.decode bs) ∧
    GameClientBoundPacket.decode 0x5A bs =
      mapRes GameClientBoundPacket.SetTitleTimes (SetTitleTimes.decode bs) := by
  refine ⟨?_, ?_, ?_, ?_, ?_, ?_, ?_, ?_, ?_, ?_, ?_, ?_, ?_, ?_, ?_, ?_, ?_, ?_⟩
  · rw [sb_arm_0x03]; exact andThen_wrap_eq_mapRes _ _
  · rw [sb_arm_0x0A]; exact andThen_wrap_eq_mapRes _ _
  · rw [sb_arm_0x0F]; exact andThen_wrap_eq_mapRes _ _
  · rw [sb_arm_0x19]; exact andThen_wrap_eq_mapRes _ _
  · rw [cb_arm_0x0E]; exact andThen_wrap_eq_mapRes _ _
  · rw [cb_arm_0x18]; exact andThen_wrap_eq_mapRes _ _
  · rw [cb_arm_0x19]; exact andThen_wrap_eq_mapRes _ _
  · rw [cb_arm_0x1A]; exact andThen_wrap_eq_mapRes _ _
  · rw [cb_arm_0x20]; exact andThen_wrap_eq_mapRes _ _
  · rw [cb_arm_0x21]; exact andThen_wrap_eq_mapRes _ _
  · rw [cb_arm_0x25]; exact andThen_wrap_eq_mapRes _ _
  · rw [cb_arm_0x3D]; exact andThen_wrap_eq_mapRes _ _
  · rw [cb_arm_0x38]; exact andThen_wrap_eq_mapRes _ _
  · rw [cb_arm_0x4B]; exact andThen_wrap_eq_mapRes _ _
  · rw [cb_arm_0x57]; exact andThen_wrap_eq_mapRes _ _
  · rw [cb_arm_0x58]; exact andThen_wrap_eq_mapRes _ _
  · rw [cb_arm_0x59]; exact andThen_wrap_eq_mapRes _ _
  · rw [cb_arm_0x5A]; exact andThen_wrap_eq_mapRes _ _

/-- Claim C4 (refuted by the code): the dispatch decodes `JoinGame` at opcode
0x25, not 0x26 — decoding 0x26 fails with `UnknownPacketType{0x26}` on any
payload, `get_type_id` of every `JoinGame` variant is 0x25, while the
`trait_packet_id!` constant for `JoinGame` is 0x26: the source contradicts
itself. -/
theorem joinGame_opcode_mismatch (bs : Bytes) :
    GameClientBoundPacket.decode 0x26 bs = .error (.unknownPacketType 0x26, bs) ∧
    (∀ p : JoinGame, GameClientBoundPacket.get_type_id (.JoinGame p) = 0x25) ∧
    JoinGame.PACKET_ID = 0x26 :=
  ⟨clientBound_decode_unknown 0x26 bs (by decide) (by decide) (by decide)
      (by decide) (by decide) (by decide) (by decide) (by decide) (by decide)
      (by decide) (by decide) (by decide) (by decide) (by decide),
   fun _ => rfl, rfl⟩

/-- Claim C5 (refuted by the code): opcodes 0x0D and 0x1B have no decode arm —
`GameClientBoundPacket.decode` returns `UnknownPacketType` for both on any
payload, although `get_type_id` maps `BossBar` to 0x0D and `EntityAction`
to 0x1B. -/
theorem bossBar_entityAction_not_decoded (bs : Bytes) :
    GameClientBoundPacket.decode 0x0D bs = .error (.unknownPacketType 0x0D, bs) ∧
    GameClientBoundPacket.decode 0x1B bs = .error (.unknownPacketType 0x1B, bs) ∧
    (∀ p : BossBar, GameClientBoundPacket.get_type_id (.BossBar p) = 0x0D) ∧
    (∀ p : EntityAction, GameClientBoundPacket.get_type_id (.EntityAction p) = 0x1B) :=
  ⟨clientBound_decode_unknown 0x0D bs (by decide) (by decide) (by decide)
      (by decide) (by decide) (by decide) (by decide) (by decide) (by decide)
      (by decide) (by decide) (by decide) (by decide) (by decide),
   clientBound_decode_unknown 0x1B bs (by decide) (by decide) (by decide)
      (by decide) (by decide) (by decide) (by decide) (by decide) (by decide)
      (by decide) (by decide) (by decide) (by decide) (by decide),
   fun _ => rfl, fun _ => rfl⟩

/-! ## Evaluation helpers for concrete packet fragments. -/

theorem readUIntBE4_zeros (rest : Bytes) :
    readUIntBE 4 (0 :: 0 :: 0 :: 0 :: rest) = .ok (0, rest) := by
  simp [readUIntBE, readByte]

theorem readUIntBE8_zeros (rest : Bytes) :
    readUIntBE 8 (0 :: 0 :: 0 :: 0 :: 0 :: 0 :: 0 :: 0 :: rest) = .ok (0, rest) := by
  simp [readUIntBE, readByte]

theorem readBool_zero (rest : Bytes) : readBool (0 :: rest) = .ok (false, rest) := by
  simp [readBool, readByte]

theorem readUIntBE1_eval (b : Nat) (rest : Bytes) :
    readUIntBE 1 (b :: rest) = .ok (b, rest) := by
  simp [readUIntBE, readByte]

theorem var_int_zero (rest : Bytes) : var_int_decode (0 :: rest) = .ok (0, rest) := by
  simp [var_int_decode, varIntDecodeCore]

theorem var_int_one (rest : Bytes) : var_int_decode (1 :: rest) = .ok (1, rest) := by
  simp [var_int_decode, varIntDecodeCore]

theorem string_list_zero (rest : Bytes) :
    string_list_decode (0 :: rest) = .ok ([], rest) := by
  simp [string_list_decode, var_int_zero, stringListAux]

theorem string_decode_empty (maxLen : Nat) (rest : Bytes) :
    string_decode maxLen (0 :: rest) = .ok ([], rest) := by
  simp [string_decode, var_int_zero, takeN]

/-- A string whose encoded length prefix exceeds the declared maximum fails
with `stringTooLong`, leaving the reader right after the length prefix. -/
theorem string_decode_too_long {maxLen n : Nat} (tail : Bytes) (hgt : maxLen < n)
    (hlt : n < 4294967296) :
    string_decode maxLen (var_int_encode n ++ tail) = .error (.stringTooLong, tail) := by
  unfold string_decode
  rw [var_int_decode_enc n tail hlt]
  simp [hgt]

/-- Concrete bytes for the seven `JoinGame` fields before `world_name`:
zero entity id, false hardcore, game modes 0, empty `world_names`, two
single-leaf trees. -/
def joinFront : Bytes := [0, 0, 0, 0, 0, 0, 0, 0, 1, 0, 1, 0]

/-- Concrete bytes for the seven `JoinGame` fields after `world_name`: zero
seed, zero varints, four false booleans. -/
def joinBack : Bytes := [0, 0, 0, 0, 0, 0, 0, 0, 0, 0, 0, 0, 0, 0]

/-- The `JoinGame` value decoded from `joinFront ++ string_encode s ++ joinBack`. -/
def joinVal (s : Bytes) : JoinGame :=
  { entity_id := 0, hardcore := false, game_mode := 0, previous_game_mode := 0,
    world_names := [], dimension_codec := .leaf 0, dimension := .leaf 0,
    world_name := s, hashed_seed := 0, max_players := 0, view_distance := 0,
    reduced_debug_info := false, enable_respawn_screen := false,
    is_debug := false, is_flat := false }

/-- Claim C7: string fields with a declared maximum are bounded at decode
time — the generic string codec, `ServerBoundPluginMessage.channel` and
`JoinGame.world_name` all fail with `stringTooLong` when the encoded byte
length exceeds the declared maximum (32767 for both packet fields) and
succeed when it is at (in particular exactly at) the maximum. -/
theorem string_max_enforced :
    (∀ maxLen n : Nat, ∀ tail : Bytes, maxLen < n → n < 4294967296 →
      string_decode maxLen (var_int_encode n ++ tail) = .error (.stringTooLong, tail)) ∧
    (∀ maxLen : Nat, ∀ s tail : Bytes, s.length ≤ maxLen → s.length < 4294967296 →
      string_decode maxLen (string_encode s ++ tail) = .ok (s, tail)) ∧
    (∀ n : Nat, ∀ tail : Bytes, 32767 < n → n < 4294967296 →
      ServerBoundPluginMessage.decode (var_int_encode n ++ tail) =
        .error (.stringTooLong, tail)) ∧
    (∀ s tail : Bytes, s.length = 32767 →
      ServerBoundPluginMessage.decode (string_encode s ++ tail) =
        .ok ({ channel := s, data := tail }, [])) ∧
    (∀ n : Nat, ∀ tail : Bytes, 32767 < n → n < 4294967296 →
      JoinGame.decode (joinFront ++ (var_int_encode n ++ tail)) =
        .error (.stringTooLong, tail)) ∧
    (∀ s : Bytes, s.length = 32767 →
      JoinGame.decode (joinFront ++ (string_encode s ++ joinBack)) =
        .ok (joinVal s, [])) := by
  refine ⟨?_, ?_, ?_, ?_, ?_, ?_⟩
  · intro maxLen n tail hgt hlt
    exact string_decode_too_long tail hgt hlt
  · intro maxLen s tail hle hsz
    exact string_decode_enc s tail hle hsz
  · intro n tail hgt hlt
    unfold ServerBoundPluginMessage.decode
    rw [string_decode_too_long tail hgt hlt]
    rfl
  · intro s tail hlen
    have h1 : s.length ≤ 32767 := by omega
    have h2 : s.length < 4294967296 := by omega
    unfold ServerBoundPluginMessage.decode
    rw [string_decode_enc s tail h1 h2]
    rfl
  · intro n tail hgt hlt
    unfold JoinGame.decode
    simp only [joinFront, List.cons_append, List.nil_append, readUIntBE4_zeros,
      andThen_ok_eval, readBool_zero, readUIntBE1_eval, string_list_zero,
      CompoundTag.decode_leaf, string_decode_too_long tail hgt hlt,
      andThen_error_eval]
  · intro s hlen
    have h1 : s.length ≤ 32767 := by omega
    have h2 : s.length < 4294967296 := by omega
    have hsd : ∀ t' : Bytes, string_decode 32767 (string_encode s ++ t') = .ok (s, t') :=
      fun t' => string_decode_enc s t' h1 h2
    unfold JoinGame.decode
    simp only [joinFront, joinBack, joinVal, List.cons_append, List.nil_append,
      readUIntBE4_zeros, andThen_ok_eval, readBool_zero, readUIntBE1_eval,
      string_list_zero, CompoundTag.decode_leaf, hsd, readUIntBE8_zeros,
      var_int_zero]

/-- Witness for C7: a length prefix of 6 fails against maximum 5; maximum 3
succeeds at exactly 3 bytes; a 32768 prefix fails the plugin-message channel
while a 32767-byte channel decodes; the same at the `JoinGame.world_name`
position. -/
theorem string_max_enforced_witness :
    string_decode 5 (var_int_encode 6 ++ [9, 9, 9, 9, 9, 9]) =
      .error (.stringTooLong, [9, 9, 9, 9, 9, 9]) ∧
    string_decode 3 (string_encode [7, 7, 7] ++ [4]) = .ok ([7, 7, 7], [4]) ∧
    ServerBoundPluginMessage.decode (var_int_encode 32768 ++ [1]) =
      .error (.stringTooLong, [1]) ∧
    ServerBoundPluginMessage.decode (string_encode (List.replicate 32767 0) ++ [5]) =
      .ok ({ channel := List.replicate 32767 0, data := [5] }, []) ∧
    JoinGame.decode (joinFront ++ (var_int_encode 32768 ++ [2])) =
      .error (.stringTooLong, [2]) ∧
    JoinGame.decode (joinFront ++ (string_encode (List.replicate 32767 0) ++ joinBack)) =
      .ok (joinVal (List.replicate 32767 0), []) :=
  ⟨string_max_enforced.1 5 6 [9, 9, 9, 9, 9, 9] (by norm_num) (by norm_num),
   string_max_enforced.2.1 3 [7, 7, 7] [4] (by norm_num) (by norm_num),
   string_max_enforced.2.2.1 32768 [1] (by norm_num) (by norm_num),
   string_max_enforced.2.2.2.1 (List.replicate 32767 0) [5] (by rw [List.length_replicate]),
   string_max_enforced.2.2.2.2.1 32768 [2] (by norm_num) (by norm_num),
   string_max_enforced.2.2.2.2.2 (List.replicate 32767 0) (by rw [List.length_replicate])⟩

/-- Concrete `JoinGame` bytes whose `world_names` holds the single element
`s`: zero front fields, element count 1, the element, then two leaf trees,
an empty `world_name`, zero seed, zero varints and four false booleans. -/
def joinWorldNamesBytes (s : Bytes) : Bytes :=
  [0, 0, 0, 0, 0, 0, 0, 1] ++ (string_encode s ++
    [1, 0, 1, 0, 0, 0, 0, 0, 0, 0, 0, 0, 0, 0, 0, 0, 0, 0, 0])

/-- The `JoinGame` value decoded from `joinWorldNamesBytes s`. -/
def joinWorldNamesVal (s : Bytes) : JoinGame :=
  { entity_id := 0, hardcore := false, game_mode := 0, previous_game_mode := 0,
    world_names := [s], dimension_codec := .leaf 0, dimension := .leaf 0,
    world_name := [], hashed_seed := 0, max_players := 0, view_distance := 0,
    reduced_debug_info := false, enable_respawn_screen := false,
    is_debug := false, is_flat := false }

/-- Claim C8 (refuted by the code): the source declares `world_names` without
a `max_length` attribute (its 32767 bound is only a `TODO` comment), so the
elements are decoded without the 32767-byte maximum — a whole `JoinGame`
whose single `world_names` element is 32768 bytes long decodes successfully
instead of failing. -/
theorem joinGame_world_names_unbounded (s : Bytes) (hlen : s.length = 32768) :
    JoinGame.decode (joinWorldNamesBytes s) = .ok (joinWorldNamesVal s, []) := by
  have h2 : s.length < 4294967296 := by omega
  have hsd : ∀ t' : Bytes, string_decode_any (string_encode s ++ t') = .ok (s, t') :=
    fun t' => string_decode_any_enc s t' h2
  unfold JoinGame.decode
  simp only [joinWorldNamesBytes, joinWorldNamesVal, List.cons_append,
    List.nil_append, readUIntBE4_zeros, andThen_ok_eval, readBool_zero,
    readUIntBE1_eval, string_list_decode, var_int_one, stringListAux, hsd,
    CompoundTag.decode_leaf, string_decode_empty, readUIntBE8_zeros,
    var_int_zero]

/-- Witness for C8: the concrete 32768-byte element (all zeros) decodes. -/
theorem joinGame_world_names_unbounded_witness :
    JoinGame.decode (joinWorldNamesBytes (List.replicate 32768 0)) =
      .ok (joinWorldNamesVal (List.replicate 32768 0), []) :=
  joinGame_world_names_unbounded (List.replicate 32768 0) (by rw [List.length_replicate])

end Proto
